import Mathlib

/-!
Verification of the AEO tracker server (`src/index.js`, which contains two
iterations of the same Express app, and `src/unnamed/part_000`, a third
iteration).

The embedding models:

* the JavaScript objects used as string-keyed maps (`oget` / `oset`, an
  association list with JS assignment semantics: updating an existing key in
  place, appending a fresh key at the end, `Object.keys` order = insertion
  order);
* JavaScript numbers restricted to the values reachable in this program:
  natural-number counters plus `NaN` (`JsNum := Option Nat`, `none` = NaN,
  produced by `undefined + n` or `NaN + n`);
* the regular-expression matching performed by
  `texto.match(new RegExp(brandName, 'g'))`.  Brand names are compiled as
  regex *patterns*, not literal strings.  The model supports the fragment in
  which every pattern character is either a literal or the metacharacter `.`
  (one-character wildcard, matching everything except line terminators, as in
  JS without the `s` flag); `parseRegex` returns `none` for brand names that
  use any other metacharacter, and the aggregation model propagates that
  `none` (in JS an invalid pattern throws and the route answers 500; patterns
  outside the modeled fragment are conservatively mapped to the same failure
  outcome);
* the `POST /api/preguntar` handler with its external collaborators
  (question insert, LLM calls, answer inserts) passed in as `Deps`, returning
  the JSON response plus a log of the attempted and successful inserts.

Case folding (`toLowerCase`) is modeled by `jsToLower` (character-wise
`Char.toLower`); the sources only ever compare ASCII here.
-/

/-! ## JS regular-expression model (literal characters and `.`) -/

/-- One element of a compiled pattern: a literal character or the wildcard
`.` of JS regexes. -/
inductive RElem where
  | lit (c : Char)
  | dot
deriving DecidableEq, Repr

/-- Whether a single pattern element matches a single character.  JS `.`
(without the `s` flag) matches everything except the four line terminators. -/
def elemMatch : RElem → Char → Bool
  | .lit c, a => c == a
  | .dot, a => !(a == '\n' || a == '\r' || a == '\u2028' || a == '\u2029')

/-- Regex metacharacters that `parseRegex` does not model (apart from `.`). -/
def isMeta (c : Char) : Bool :=
  c == '\\' || c == '^' || c == '$' || c == '*' || c == '+' || c == '?' ||
  c == '(' || c == ')' || c == '[' || c == ']' || c == '\x7b' || c == '\x7d' ||
  c == '|'

/-- Compile a brand name, character by character, the way
`new RegExp(brandName)` reads it: `.` becomes the wildcard, any other
non-metacharacter matches itself.  Returns `none` outside the modeled
fragment. -/
def parseRegex : List Char → Option (List RElem)
  | [] => some []
  | c :: rest =>
    if isMeta c then none
    else (parseRegex rest).map (fun p => (if c = '.' then RElem.dot else RElem.lit c) :: p)

/-- Try to match the pattern at the very start of `cs`; on success return the
rest of the input after the matched span. -/
def matchAt : List RElem → List Char → Option (List Char)
  | [], cs => some cs
  | _ :: _, [] => none
  | e :: p, c :: cs => if elemMatch e c then matchAt p cs else none

/-- Fuel-indexed worker for the global match count; `gcount` always supplies
enough fuel, see `gcountAux_congr`. -/
def gcountAux (p : List RElem) : Nat → List Char → Nat
  | 0, _ => 0
  | fuel + 1, cs =>
    if p = [] then cs.length + 1
    else
      match matchAt p cs with
      | some rest => 1 + gcountAux p fuel rest
      | none =>
        match cs with
        | [] => 0
        | _ :: t => gcountAux p fuel t

/-- Number of matches of `String.prototype.match` with the `g` flag: scan the
text left to right, a successful match consumes its span (non-overlapping
global semantics); an empty pattern matches once at every position. -/
def gcount (p : List RElem) (cs : List Char) : Nat :=
  gcountAux p (cs.length + 1) cs

/-- `(texto.match(new RegExp(nombre, 'g')) || []).length` for already
case-folded strings: `none` when the pattern is outside the modeled
fragment. -/
def countMentions (nombre texto : String) : Option Nat :=
  (parseRegex nombre.toList).map (fun p => gcount p texto.toList)

/-- `toLowerCase`, character by character (`String.toLower` itself is defined
by well-founded recursion over byte positions, which blocks kernel
evaluation; this definition folds exactly the same characters). -/
def jsToLower (s : String) : String :=
  ⟨s.data.map Char.toLower⟩

/-! ## The specification's literal, non-overlapping substring count -/

/-- Fuel-indexed worker for `literalCount`. -/
def literalCountAux (pat : List Char) : Nat → List Char → Nat
  | 0, _ => 0
  | fuel + 1, cs =>
    if pat = [] then cs.length + 1
    else if pat.isPrefixOf cs then 1 + literalCountAux pat fuel (cs.drop pat.length)
    else
      match cs with
      | [] => 0
      | _ :: t => literalCountAux pat fuel t

/-- Stated from the specification's words, for comparison with the code's
`countMentions`: the number of non-overlapping occurrences of `pat` taken as
a literal string inside `cs`, scanning left to right, each occurrence
consuming its matched span before the search continues (and, as the
specification fixes the semantics to be the regex global-match one, an empty
`pat` occurring once at every position). -/
def literalCount (pat cs : List Char) : Nat :=
  literalCountAux pat (cs.length + 1) cs

/-! ## JS objects used as string-keyed maps, and JS numbers -/

/-- A JavaScript number as reachable in this program: a natural-number
counter, or NaN (`none`), which arises from `undefined + n` and is absorbing
under addition. -/
abbrev JsNum := Option Nat

/-- `x + n` on JS numbers: NaN propagates. -/
def jsAdd (x : JsNum) (n : Nat) : JsNum :=
  x.map (· + n)

/-- Property read `o[k]`: the value stored under the first occurrence of `k`,
or `none` for JS `undefined`. -/
def oget {α : Type} : List (String × α) → String → Option α
  | [], _ => none
  | kv :: rest, k => if kv.1 = k then some kv.2 else oget rest k

/-- Property write `o[k] = v`: overwrite in place if the key exists, append a
fresh key at the end otherwise (JS property insertion order). -/
def oset {α : Type} : List (String × α) → String → α → List (String × α)
  | [], k, v => [(k, v)]
  | kv :: rest, k, v => if kv.1 = k then (k, v) :: rest else kv :: oset rest k v

/-- `o[k] += n` on a JS object holding numbers: a missing key reads as
`undefined`, and `undefined + n` is NaN. -/
def oplusEq (o : List (String × JsNum)) (k : String) (n : Nat) : List (String × JsNum) :=
  oset o k (jsAdd ((oget o k).getD none) n)

/-- `Object.keys`. -/
def okeys {α : Type} (o : List (String × α)) : List String :=
  o.map Prod.fst

/-- `Object.values`. -/
def ovalues {α : Type} (o : List (String × α)) : List α :=
  o.map Prod.snd

/-- Sum of the numeric entries of a breakdown object (NaN summed as `0`;
the invariants show NaN never occurs where this is used). -/
def sumVals (o : List (String × JsNum)) : Nat :=
  (o.map (fun kv => kv.2.getD 0)).sum

/-! ## Data model and the dashboard aggregation -/

/-- A row of the `marcas` table as the aggregation reads it. -/
structure Marca where
  nombre_marca : String
deriving DecidableEq, Repr

/-- A row of the `respuestas` table as the aggregation reads it. -/
structure Respuesta where
  modelo_llm : String
  texto_respuesta : String
deriving DecidableEq, Repr

/-- The configured provider list `['Gemini', 'ChatGPT', 'Claude']`. -/
def models : List String :=
  ["Gemini", "ChatGPT", "Claude"]

/-- The per-brand breakdown object as initialized by the dashboard route:
an entry of `0` per configured provider. -/
def innerInit : List (String × JsNum) :=
  [("Gemini", some 0), ("ChatGPT", some 0), ("Claude", some 0)]

/-- The state of the two mention counters while scanning the answers. -/
abbrev CountSt := List (String × JsNum) × List (String × List (String × JsNum))

/-- One round of the initialization loop: a `0` total and a zeroed breakdown
for the brand. -/
def initStep (st : List (String × JsNum) × List (String × List (String × JsNum)))
    (m : Marca) :
    List (String × JsNum) × List (String × List (String × JsNum)) :=
  (oset st.1 m.nombre_marca (some 0), oset st.2 m.nombre_marca innerInit)

/-- The two counter objects `brandMentions` and `modelBrandMentions` after
the initialization loop over `marcas`. -/
def initCounters (marcas : List Marca) :
    List (String × JsNum) × List (String × List (String × JsNum)) :=
  marcas.foldl initStep ([], [])

/-- The body of the per-brand loop for one answer, first iteration of the
app (`src/index.js`, first copy, lines 135-145): count, add to the brand
total, and add to the per-provider breakdown only under the
`!== undefined` guard.  `none` models a thrown exception (invalid pattern,
or property access on `undefined`). -/
def brandStep1 (texto modelo : String)
    (st : List (String × JsNum) × List (String × List (String × JsNum))) (m : Marca) :
    Option (List (String × JsNum) × List (String × List (String × JsNum))) := do
  let mentions ← countMentions (jsToLower m.nombre_marca) texto
  if mentions > 0 then do
    let inner ← oget st.2 m.nombre_marca
    if (oget inner modelo).isSome then
      pure (oplusEq st.1 m.nombre_marca mentions,
        oset st.2 m.nombre_marca (oplusEq inner modelo mentions))
    else
      pure (oplusEq st.1 m.nombre_marca mentions, st.2)
  else
    pure st

/-- Processing of one answer by the first iteration: lower-case the text
once, then run the per-brand loop. -/
def countStep1 (marcas : List Marca)
    (st : List (String × JsNum) × List (String × List (String × JsNum)))
    (r : Respuesta) :
    Option (List (String × JsNum) × List (String × List (String × JsNum))) :=
  marcas.foldlM (brandStep1 (jsToLower r.texto_respuesta) r.modelo_llm) st

/-- The JSON answered by `GET /api/dashboard-data`. -/
structure DashboardData where
  brandMentions : List (String × JsNum)
  modelBrandMentions : List (String × List (String × JsNum))
  pieLabels : List String
  pieData : List JsNum
  totalResponses : Nat
  totalBrands : Nat
deriving DecidableEq, Repr

/-- `GET /api/dashboard-data`, first iteration, given the two table reads.
`none` is the route's catch-all 500 answer. -/
def aggregate (marcas : List Marca) (respuestas : List Respuesta) :
    Option DashboardData := do
  let st ← respuestas.foldlM (countStep1 marcas) (initCounters marcas)
  pure
    { brandMentions := st.1
      modelBrandMentions := st.2
      pieLabels := okeys st.1
      pieData := ovalues st.1
      totalResponses := respuestas.length
      totalBrands := marcas.length }

/-- The body of the per-brand loop in the second and third iterations
(`src/index.js` second copy, lines 360-367, and `src/unnamed/part_000`,
lines 84-91): same counting, but
`modelBrandMentions[m.nombre_marca][modelo] += count` is unguarded, so an
unknown `modelo` key is created holding `undefined + count`, i.e. NaN. -/
def brandStep3 (texto modelo : String)
    (st : List (String × JsNum) × List (String × List (String × JsNum))) (m : Marca) :
    Option (List (String × JsNum) × List (String × List (String × JsNum))) := do
  let count ← countMentions (jsToLower m.nombre_marca) texto
  if count > 0 then do
    let inner ← oget st.2 m.nombre_marca
    pure (oplusEq st.1 m.nombre_marca count,
      oset st.2 m.nombre_marca (oplusEq inner modelo count))
  else
    pure st

/-- Processing of one answer by the second and third iterations. -/
def countStep3 (marcas : List Marca)
    (st : List (String × JsNum) × List (String × List (String × JsNum)))
    (r : Respuesta) :
    Option (List (String × JsNum) × List (String × List (String × JsNum))) :=
  marcas.foldlM (brandStep3 (jsToLower r.texto_respuesta) r.modelo_llm) st

/-- `GET /api/dashboard-data` of the second and third iterations. -/
def aggregateV3 (marcas : List Marca) (respuestas : List Respuesta) :
    Option DashboardData := do
  let st ← respuestas.foldlM (countStep3 marcas) (initCounters marcas)
  pure
    { brandMentions := st.1
      modelBrandMentions := st.2
      pieLabels := okeys st.1
      pieData := ovalues st.1
      totalResponses := respuestas.length
      totalBrands := marcas.length }


/-! ## The question-intake workflow `POST /api/preguntar` -/

/-- A row inserted into the `respuestas` table. -/
structure RespRec where
  id_pregunta : Nat
  modelo_llm : String
  texto_respuesta : String
deriving DecidableEq, Repr

/-- The handler's external collaborators: the question insert (returning the
created row's id or the store's error), the per-provider LLM call (which may
reject), and the answer insert (whose result object the handler
never reads; `true` means the row was stored). -/
structure Deps where
  qInsert : String → Except Unit Nat
  llm : String → String → Except Unit String
  aInsert : RespRec → Bool

/-- What the provider loop accumulates: the `respuestas` response object,
the providers invoked so far, the answer rows handed to the store, and the
subset of those the store accepted. -/
structure LoopAcc where
  respuestas : List (String × String)
  llmCalls : List String
  attempts : List RespRec
  persisted : List RespRec
deriving DecidableEq, Repr

/-- Errors with which the handler answers before reaching the provider loop:
400 for a missing/empty `texto_pregunta`, 500 for a failed question insert. -/
inductive SubmitError where
  | validation
  | storage
deriving DecidableEq, Repr

/-- The success JSON of the handler.  The first iteration echoes the question
text under the key `pregunta`; the later iterations answer only
`pregunta_id` and `respuestas`, which is modeled by `pregunta := none`. -/
structure SubmitResp where
  pregunta_id : Nat
  pregunta : Option String
  respuestas : List (String × String)
deriving DecidableEq, Repr

/-- The observable outcome of one handler run: the HTTP answer plus the
store traffic. -/
structure SubmitOut where
  result : Except SubmitError SubmitResp
  qInsertAttempted : Bool
  llmCalls : List String
  attempts : List RespRec
  persisted : List RespRec
deriving Repr

/-- The provider loop of the first iteration (`src/index.js`, first copy,
lines 63-80): call the LLM, record its text (or the placeholder
`Error getting response from <model>` when it rejects), and hand the
successful text to the store, ignoring the store's verdict. -/
def answerLoop1 (deps : Deps) (t : String) (qid : Nat) :
    List String → LoopAcc → LoopAcc
  | [], acc => acc
  | model :: rest, acc =>
    match deps.llm model t with
    | .ok respuesta =>
      let row : RespRec := ⟨qid, model, respuesta⟩
      answerLoop1 deps t qid rest
        { respuestas := oset acc.respuestas model respuesta
          llmCalls := acc.llmCalls ++ [model]
          attempts := acc.attempts ++ [row]
          persisted := acc.persisted ++ if deps.aInsert row then [row] else [] }
    | .error _ =>
      answerLoop1 deps t qid rest
        { respuestas := oset acc.respuestas model ("Error getting response from " ++ model)
          llmCalls := acc.llmCalls ++ [model]
          attempts := acc.attempts
          persisted := acc.persisted }

/-- `POST /api/preguntar`, first iteration.  `texto_pregunta = none` models a
body without the field; the empty string is the other falsy string. -/
def submit1 (deps : Deps) (texto_pregunta : Option String) : SubmitOut :=
  match texto_pregunta with
  | none =>
    { result := .error .validation, qInsertAttempted := false,
      llmCalls := [], attempts := [], persisted := [] }
  | some t =>
    if t = "" then
      { result := .error .validation, qInsertAttempted := false,
        llmCalls := [], attempts := [], persisted := [] }
    else
      match deps.qInsert t with
      | .error _ =>
        { result := .error .storage, qInsertAttempted := true,
          llmCalls := [], attempts := [], persisted := [] }
      | .ok qid =>
        let acc := answerLoop1 deps t qid models ⟨[], [], [], []⟩
        { result := .ok { pregunta_id := qid, pregunta := some t, respuestas := acc.respuestas }
          qInsertAttempted := true
          llmCalls := acc.llmCalls
          attempts := acc.attempts
          persisted := acc.persisted }

/-- The provider loop of the second and third iterations, identical except
for the placeholder text `Error en modelo <model>`. -/
def answerLoop2 (deps : Deps) (t : String) (qid : Nat) :
    List String → LoopAcc → LoopAcc
  | [], acc => acc
  | model :: rest, acc =>
    match deps.llm model t with
    | .ok respuesta =>
      let row : RespRec := ⟨qid, model, respuesta⟩
      answerLoop2 deps t qid rest
        { respuestas := oset acc.respuestas model respuesta
          llmCalls := acc.llmCalls ++ [model]
          attempts := acc.attempts ++ [row]
          persisted := acc.persisted ++ if deps.aInsert row then [row] else [] }
    | .error _ =>
      answerLoop2 deps t qid rest
        { respuestas := oset acc.respuestas model ("Error en modelo " ++ model)
          llmCalls := acc.llmCalls ++ [model]
          attempts := acc.attempts
          persisted := acc.persisted }

/-- `POST /api/preguntar`, second and third iterations: same control flow,
but the success JSON carries only `pregunta_id` and `respuestas` - the question
text is not echoed. -/
def submit2 (deps : Deps) (texto_pregunta : Option String) : SubmitOut :=
  match texto_pregunta with
  | none =>
    { result := .error .validation, qInsertAttempted := false,
      llmCalls := [], attempts := [], persisted := [] }
  | some t =>
    if t = "" then
      { result := .error .validation, qInsertAttempted := false,
        llmCalls := [], attempts := [], persisted := [] }
    else
      match deps.qInsert t with
      | .error _ =>
        { result := .error .storage, qInsertAttempted := true,
          llmCalls := [], attempts := [], persisted := [] }
      | .ok qid =>
        let acc := answerLoop2 deps t qid models ⟨[], [], [], []⟩
        { result := .ok { pregunta_id := qid, pregunta := none, respuestas := acc.respuestas }
          qInsertAttempted := true
          llmCalls := acc.llmCalls
          attempts := acc.attempts
          persisted := acc.persisted }

/-- The text recorded for a provider in the first iteration's response: the
generated answer, or the error placeholder naming the failing provider. -/
def respOf1 (deps : Deps) (t model : String) : String :=
  match deps.llm model t with
  | .ok s => s
  | .error _ => "Error getting response from " ++ model

/-- The text recorded for a provider in the second and third iterations. -/
def respOf2 (deps : Deps) (t model : String) : String :=
  match deps.llm model t with
  | .ok s => s
  | .error _ => "Error en modelo " ++ model

/-- The `respuestas` row submitted to the store for a provider, or `none` if
the provider failed generation (no row is submitted then). -/
def rowOf (deps : Deps) (t : String) (qid : Nat) (model : String) : Option RespRec :=
  match deps.llm model t with
  | .ok s => some ⟨qid, model, s⟩
  | .error _ => none

/-- Whether a provider's generation call fails for the given question. -/
def llmFails (deps : Deps) (t model : String) : Bool :=
  match deps.llm model t with
  | .ok _ => false
  | .error _ => true

/-- All brand names compile inside the modeled regex fragment (every literal
brand name does). -/
def BrandsOk (marcas : List Marca) : Prop :=
  ∀ m ∈ marcas, (parseRegex (jsToLower m.nombre_marca).toList).isSome = true

/-- Invariant of the guarded (first-iteration) counting state: every brand of
`marcas` has a breakdown entry, and every breakdown object has exactly the
configured providers as keys. -/
def KInv (marcas : List Marca)
    (st : List (String × JsNum) × List (String × List (String × JsNum))) : Prop :=
  (∀ m ∈ marcas, (oget st.2 m.nombre_marca).isSome = true) ∧
  (∀ nm inner, oget st.2 nm = some inner → okeys inner = okeys innerInit)

/-- Invariant of the unguarded (second/third-iteration) counting state: every
brand of `marcas` has a breakdown entry, and breakdown keys outside the
configured provider set only ever hold NaN. -/
def KInv3 (marcas : List Marca)
    (st : List (String × JsNum) × List (String × List (String × JsNum))) : Prop :=
  (∀ m ∈ marcas, (oget st.2 m.nombre_marca).isSome = true) ∧
  (∀ nm inner, oget st.2 nm = some inner →
    ∀ k v, oget inner k = some v → k ∉ models → v = none)

/-- Bookkeeping invariant of the guarded counting state used for the
breakdown-versus-total comparison: breakdown keys are exactly the configured
providers, all breakdown entries are numbers (never NaN), and each brand's
breakdown sum is bounded by its total. -/
def SumInv (st : List (String × JsNum) × List (String × List (String × JsNum))) : Prop :=
  ∀ nm inner, oget st.2 nm = some inner →
    okeys inner = okeys innerInit ∧
    (∀ kv ∈ inner, kv.2.isSome = true) ∧
    ∃ t, oget st.1 nm = some (some t) ∧ sumVals inner ≤ t

/-- Strengthening of `SumInv`: each brand's breakdown sum equals its total
(holds as long as every processed answer names a configured provider). -/
def SumEq (st : List (String × JsNum) × List (String × List (String × JsNum))) : Prop :=
  ∀ nm inner, oget st.2 nm = some inner →
    ∃ t, oget st.1 nm = some (some t) ∧ sumVals inner = t

/-! ## Library lemmas: JS objects -/

theorem oget_oset_self {α : Type} (o : List (String × α)) (k : String) (v : α) :
    oget (oset o k v) k = some v := by
  induction o with
  | nil => simp [oget, oset]
  | cons kv rest ih =>
    by_cases h : kv.1 = k
    · simp [oget, oset, h]
    · simp [oget, oset, h, ih]

theorem oget_oset_ne {α : Type} (o : List (String × α)) (k k' : String) (v : α)
    (h : k' ≠ k) : oget (oset o k v) k' = oget o k' := by
  induction o with
  | nil => simp [oget, oset, Ne.symm h]
  | cons kv rest ih =>
    obtain ⟨a, b⟩ := kv
    by_cases hk : a = k
    · simp [oget, oset, hk, Ne.symm h]
    · by_cases hk' : a = k'
      · simp [oget, oset, hk, hk', h]
      · simp [oget, oset, hk, hk', ih]

theorem oget_mem {α : Type} {o : List (String × α)} {k : String} {v : α}
    (h : oget o k = some v) : (k, v) ∈ o := by
  induction o with
  | nil => simp [oget] at h
  | cons kv rest ih =>
    obtain ⟨a, b⟩ := kv
    by_cases hk : a = k
    · subst hk
      simp [oget] at h
      subst h
      exact List.mem_cons_self _ _
    · simp only [oget, hk, if_neg hk] at h
      exact List.mem_cons_of_mem _ (ih h)

theorem oget_isSome_iff_mem {α : Type} (o : List (String × α)) (k : String) :
    (oget o k).isSome = true ↔ k ∈ okeys o := by
  induction o with
  | nil => simp [oget, okeys]
  | cons kv rest ih =>
    obtain ⟨a, b⟩ := kv
    by_cases hk : a = k
    · simp [oget, okeys, hk]
    · simp [oget, okeys, hk, ih, Ne.symm hk]

theorem okeys_oset_mem {α : Type} (o : List (String × α)) (k : String) (v : α)
    (h : k ∈ okeys o) : okeys (oset o k v) = okeys o := by
  induction o with
  | nil => simp [okeys] at h
  | cons kv rest ih =>
    obtain ⟨a, b⟩ := kv
    by_cases hk : a = k
    · simp [okeys, oset, hk]
    · have hmem : k ∈ okeys rest := by
        rcases (by simpa [okeys] using h) with h' | h'
        · exact absurd h'.symm hk
        · simpa [okeys] using h'
      have := ih hmem
      simp only [okeys] at this
      simp only [oset, if_neg hk, okeys, List.map_cons, this]

theorem oget_oset_isSome {α : Type} (o : List (String × α)) (k k' : String) (v : α)
    (h : (oget o k').isSome = true) : (oget (oset o k v) k').isSome = true := by
  by_cases hk : k' = k
  · subst hk
    simp [oget_oset_self]
  · rwa [oget_oset_ne _ _ _ _ hk]

theorem sumVals_oset {o : List (String × JsNum)} {k : String} {v : Nat}
    (h : oget o k = some (some v)) (n : Nat) :
    sumVals (oset o k (some (v + n))) = sumVals o + n := by
  induction o with
  | nil => simp [oget] at h
  | cons kv rest ih =>
    obtain ⟨a, b⟩ := kv
    by_cases hk : a = k
    · subst hk
      simp [oget] at h
      subst h
      simp [sumVals, oset]
      omega
    · simp only [oget, hk, if_neg hk] at h
      have := ih h
      simp only [sumVals, oset, if_neg hk, List.map_cons, List.sum_cons]
      simp only [sumVals] at this
      omega

/-! ## Library lemmas: the match-count model -/

theorem matchAt_length {p : List RElem} {cs rest : List Char}
    (h : matchAt p cs = some rest) : p.length + rest.length = cs.length := by
  induction p generalizing cs with
  | nil =>
    simp only [matchAt, Option.some.injEq] at h
    subst h
    simp
  | cons e p ih =>
    cases cs with
    | nil => simp [matchAt] at h
    | cons c cs =>
      simp only [matchAt] at h
      by_cases hm : elemMatch e c
      · rw [if_pos hm] at h
        have := ih h
        simp only [List.length_cons]
        omega
      · rw [if_neg hm] at h
        exact absurd h (by simp)

theorem gcountAux_congr {p : List RElem} :
    ∀ (f1 : Nat) (cs : List Char) (f2 : Nat), cs.length < f1 → cs.length < f2 →
      gcountAux p f1 cs = gcountAux p f2 cs := by
  intro f1
  induction f1 with
  | zero => intro cs f2 h1 h2; omega
  | succ f1 ih =>
    intro cs f2 h1 h2
    cases f2 with
    | zero => omega
    | succ f2 =>
      by_cases hp : p = []
      · simp [gcountAux, hp]
      · simp only [gcountAux]
        rw [if_neg hp, if_neg hp]
        cases hm : matchAt p cs with
        | some rest =>
          have hl := matchAt_length hm
          have hpl : 0 < p.length := List.length_pos.mpr hp
          show 1 + gcountAux p f1 rest = 1 + gcountAux p f2 rest
          rw [ih rest f2 (by omega) (by omega)]
        | none =>
          cases cs with
          | nil => rfl
          | cons c t =>
            show gcountAux p f1 t = gcountAux p f2 t
            have h1' : t.length < f1 := by
              simp only [List.length_cons] at h1
              omega
            have h2' : t.length < f2 := by
              simp only [List.length_cons] at h2
              omega
            exact ih t f2 h1' h2'

theorem gcount_eq (p : List RElem) (cs : List Char) :
    gcount p cs =
      if p = [] then cs.length + 1
      else
        match matchAt p cs with
        | some rest => 1 + gcount p rest
        | none =>
          match cs with
          | [] => 0
          | _ :: t => gcount p t := by
  by_cases hp : p = []
  · simp [gcount, gcountAux, hp]
  · rw [if_neg hp]
    show gcountAux p (cs.length + 1) cs = _
    simp only [gcountAux]
    rw [if_neg hp]
    cases hm : matchAt p cs with
    | some rest =>
      have hl := matchAt_length hm
      have hpl : 0 < p.length := List.length_pos.mpr hp
      show 1 + gcountAux p cs.length rest = 1 + gcount p rest
      rw [gcountAux_congr cs.length rest (rest.length + 1) (by omega) (by omega)]
      rfl
    | none =>
      cases cs with
      | nil => rfl
      | cons c t => rfl

theorem literalCountAux_congr {pat : List Char} :
    ∀ (f1 : Nat) (cs : List Char) (f2 : Nat), cs.length < f1 → cs.length < f2 →
      literalCountAux pat f1 cs = literalCountAux pat f2 cs := by
  intro f1
  induction f1 with
  | zero => intro cs f2 h1 h2; omega
  | succ f1 ih =>
    intro cs f2 h1 h2
    cases f2 with
    | zero => omega
    | succ f2 =>
      by_cases hp : pat = []
      · simp [literalCountAux, hp]
      · simp only [literalCountAux]
        rw [if_neg hp, if_neg hp]
        by_cases hpre : pat.isPrefixOf cs
        · have hle : pat.length ≤ cs.length :=
            (List.isPrefixOf_iff_prefix.mp hpre).length_le
          have hpl : 0 < pat.length := List.length_pos.mpr hp
          have hdl : (cs.drop pat.length).length < cs.length := by
            simp only [List.length_drop]
            omega
          rw [if_pos hpre, if_pos hpre,
            ih (cs.drop pat.length) f2 (by omega) (by omega)]
        · rw [if_neg hpre, if_neg hpre]
          cases cs with
          | nil => rfl
          | cons c t =>
            show literalCountAux pat f1 t = literalCountAux pat f2 t
            have h1' : t.length < f1 := by
              simp only [List.length_cons] at h1
              omega
            have h2' : t.length < f2 := by
              simp only [List.length_cons] at h2
              omega
            exact ih t f2 h1' h2'

theorem literalCount_eq (pat cs : List Char) :
    literalCount pat cs =
      if pat = [] then cs.length + 1
      else if pat.isPrefixOf cs then 1 + literalCount pat (cs.drop pat.length)
      else
        match cs with
        | [] => 0
        | _ :: t => literalCount pat t := by
  by_cases hp : pat = []
  · simp [literalCount, literalCountAux, hp]
  · rw [if_neg hp]
    show literalCountAux pat (cs.length + 1) cs = _
    simp only [literalCountAux]
    rw [if_neg hp]
    by_cases hpre : pat.isPrefixOf cs
    · have hle : pat.length ≤ cs.length :=
        (List.isPrefixOf_iff_prefix.mp hpre).length_le
      have hpl : 0 < pat.length := List.length_pos.mpr hp
      have hdl : (cs.drop pat.length).length < cs.length := by
        simp only [List.length_drop]
        omega
      rw [if_pos hpre, if_pos hpre,
        literalCountAux_congr cs.length (cs.drop pat.length)
          ((cs.drop pat.length).length + 1) (by omega) (by omega)]
      rfl
    · rw [if_neg hpre, if_neg hpre]
      cases cs with
      | nil => rfl
      | cons c t => rfl

theorem matchAt_map_lit (pat : List Char) : ∀ cs : List Char,
    matchAt (pat.map RElem.lit) cs =
      if pat.isPrefixOf cs then some (cs.drop pat.length) else none := by
  induction pat with
  | nil =>
    intro cs
    simp [matchAt, List.isPrefixOf]
  | cons c pr ih =>
    intro cs
    cases cs with
    | nil => simp [matchAt, List.isPrefixOf]
    | cons a cs =>
      simp only [List.map_cons, matchAt, List.isPrefixOf, elemMatch]
      by_cases hc : (c == a) = true
      · simp [hc, ih cs]
      · simp [hc]

theorem parseRegex_lit {cs : List Char}
    (h : ∀ c ∈ cs, isMeta c = false ∧ c ≠ '.') :
    parseRegex cs = some (cs.map RElem.lit) := by
  induction cs with
  | nil => simp [parseRegex]
  | cons c rest ih =>
    obtain ⟨h1, h2⟩ := h c (List.mem_cons_self _ _)
    have hrest := ih (fun a ha => h a (List.mem_cons_of_mem _ ha))
    simp [parseRegex, h1, h2, hrest]

theorem gcount_map_lit (pat : List Char) (cs : List Char) :
    gcount (pat.map RElem.lit) cs = literalCount pat cs := by
  suffices h : ∀ (n : Nat) (cs : List Char), cs.length ≤ n →
      gcount (pat.map RElem.lit) cs = literalCount pat cs from
    h cs.length cs le_rfl
  intro n
  induction n with
  | zero =>
    intro cs hcs
    have hcs0 : cs = [] := List.length_eq_zero.mp (Nat.le_zero.mp hcs)
    subst hcs0
    rw [gcount_eq, literalCount_eq]
    by_cases hp : pat = []
    · simp [hp]
    · have hp' : pat.map RElem.lit ≠ [] := by simpa using hp
      have hpre : pat.isPrefixOf ([] : List Char) = false := by
        cases pat with
        | nil => exact absurd rfl hp
        | cons a b => rfl
      rw [if_neg hp', if_neg hp, matchAt_map_lit]
      simp [hpre]
  | succ n ih =>
    intro cs hcs
    rw [gcount_eq, literalCount_eq]
    by_cases hp : pat = []
    · simp [hp]
    · have hp' : pat.map RElem.lit ≠ [] := by simpa using hp
      have hpl : 0 < pat.length := List.length_pos.mpr hp
      rw [if_neg hp', if_neg hp, matchAt_map_lit]
      by_cases hpre : pat.isPrefixOf cs
      · have hle : pat.length ≤ cs.length :=
          (List.isPrefixOf_iff_prefix.mp hpre).length_le
        rw [if_pos hpre, if_pos hpre]
        show 1 + gcount (pat.map RElem.lit) (cs.drop pat.length) =
          1 + literalCount pat (cs.drop pat.length)
        have : (cs.drop pat.length).length ≤ n := by
          simp only [List.length_drop]
          omega
        rw [ih (cs.drop pat.length) this]
      · rw [if_neg hpre, if_neg hpre]
        cases cs with
        | nil => rfl
        | cons c t =>
          show gcount (pat.map RElem.lit) t = literalCount pat t
          have : t.length ≤ n := by
            simp only [List.length_cons] at hcs
            omega
          exact ih t this

/-! ## Claim C2: what the mention count actually is -/

/-- Claim C2 (counterexample): the claim states that the mention count equals
the number of literal, non-overlapping occurrences of the case-folded brand
name for every brand name.  For the brand name `a.` and the answer text `ab`
the aggregation counts 1 mention (the brand name is compiled as a regex
pattern, and `.` matches `b`), while the literal count of the string `a.` in
`ab` is 0. -/
theorem c2_counterexample :
    aggregate [⟨"a."⟩] [⟨"Gemini", "ab"⟩] =
      some { brandMentions := [("a.", some 1)]
             modelBrandMentions :=
               [("a.", [("Gemini", some 1), ("ChatGPT", some 0), ("Claude", some 0)])]
             pieLabels := ["a."]
             pieData := [some 1]
             totalResponses := 1
             totalBrands := 1 } ∧
    countMentions "a." "ab" = some 1 ∧
    literalCount (jsToLower "a.").toList (jsToLower "ab").toList = 0 := by
  refine ⟨?_, ?_, ?_⟩ <;> decide

/-- Claim C2 (amended): for every brand name whose case-folded form contains
no regex metacharacter (and no `.`), the mention count computed by the
aggregation - `countMentions` applied to the case-folded brand name and the
case-folded answer text - equals the number of non-overlapping occurrences of
the case-folded brand name, taken as a literal string, within the case-folded
answer text.  (For brand names containing metacharacters the name is
interpreted as a regex pattern instead, see the counterexample.) -/
theorem c2_amended (nombre texto : String)
    (h : ∀ c ∈ (jsToLower nombre).toList, isMeta c = false ∧ c ≠ '.') :
    countMentions (jsToLower nombre) (jsToLower texto) =
      some (literalCount (jsToLower nombre).toList (jsToLower texto).toList) := by
  unfold countMentions
  rw [parseRegex_lit h]
  simp [gcount_map_lit]

theorem c2_witness :
    (∀ c ∈ (jsToLower "Nike").toList, isMeta c = false ∧ c ≠ '.') ∧
    countMentions (jsToLower "Nike") (jsToLower "or NIKE or nike") =
      some (literalCount (jsToLower "Nike").toList (jsToLower "or NIKE or nike").toList) :=
  ⟨by decide, c2_amended "Nike" "or NIKE or nike" (by decide)⟩

/-! ## Claim C7: overlapping occurrences are not counted -/

/-- Claim C7: counting the brand name `aa` in the answer text `aaa` yields a
mention count of 1, not 2 - both for the raw counting function and through
the whole aggregation. -/
theorem c7_nonoverlapping :
    countMentions "aa" "aaa" = some 1 ∧
    aggregate [⟨"aa"⟩] [⟨"Gemini", "aaa"⟩] =
      some { brandMentions := [("aa", some 1)]
             modelBrandMentions :=
               [("aa", [("Gemini", some 1), ("ChatGPT", some 0), ("Claude", some 0)])]
             pieLabels := ["aa"]
             pieData := [some 1]
             totalResponses := 1
             totalBrands := 1 } := by
  refine ⟨?_, ?_⟩ <;> decide

/-! ## Library lemmas: the provider loop -/

theorem answerLoop1_spec (deps : Deps) (t : String) (qid : Nat) :
    ∀ (ms : List String) (acc : LoopAcc),
      answerLoop1 deps t qid ms acc =
        { respuestas :=
            ms.foldl (fun o model => oset o model (respOf1 deps t model)) acc.respuestas
          llmCalls := acc.llmCalls ++ ms
          attempts := acc.attempts ++ ms.filterMap (rowOf deps t qid)
          persisted := acc.persisted ++
            (ms.filterMap (rowOf deps t qid)).filter (fun row => deps.aInsert row) } := by
  intro ms
  induction ms with
  | nil => intro acc; simp [answerLoop1]
  | cons model rest ih =>
    intro acc
    cases hm : deps.llm model t with
    | ok s =>
      simp only [answerLoop1, hm, ih, List.foldl_cons, List.filterMap_cons, rowOf,
        respOf1, List.filter_cons]
      cases hins : deps.aInsert ⟨qid, model, s⟩ with
      | true => simp [hins, List.append_assoc]
      | false => simp [hins, List.append_assoc]
    | error e =>
      simp only [answerLoop1, hm, ih, List.foldl_cons, List.filterMap_cons, rowOf,
        respOf1, List.filter_cons]
      simp [List.append_assoc]

theorem answerLoop2_spec (deps : Deps) (t : String) (qid : Nat) :
    ∀ (ms : List String) (acc : LoopAcc),
      answerLoop2 deps t qid ms acc =
        { respuestas :=
            ms.foldl (fun o model => oset o model (respOf2 deps t model)) acc.respuestas
          llmCalls := acc.llmCalls ++ ms
          attempts := acc.attempts ++ ms.filterMap (rowOf deps t qid)
          persisted := acc.persisted ++
            (ms.filterMap (rowOf deps t qid)).filter (fun row => deps.aInsert row) } := by
  intro ms
  induction ms with
  | nil => intro acc; simp [answerLoop2]
  | cons model rest ih =>
    intro acc
    cases hm : deps.llm model t with
    | ok s =>
      simp only [answerLoop2, hm, ih, List.foldl_cons, List.filterMap_cons, rowOf,
        respOf2, List.filter_cons]
      cases hins : deps.aInsert ⟨qid, model, s⟩ with
      | true => simp [hins, List.append_assoc]
      | false => simp [hins, List.append_assoc]
    | error e =>
      simp only [answerLoop2, hm, ih, List.foldl_cons, List.filterMap_cons, rowOf,
        respOf2, List.filter_cons]
      simp [List.append_assoc]

/-! ## Claim C5: empty or missing question text -/

/-- Claim C5: for every empty or missing question text, the handler answers
the validation error and performs no persistence - the question insert is
never attempted, no provider is invoked, and no answer row is submitted to
the store, in all three iterations. -/
theorem c5_validation (deps : Deps) (b : Option String)
    (hb : b = none ∨ b = some "") :
    (submit1 deps b).result = .error .validation ∧
    (submit1 deps b).qInsertAttempted = false ∧
    (submit1 deps b).llmCalls = [] ∧
    (submit1 deps b).attempts = [] ∧
    (submit1 deps b).persisted = [] ∧
    (submit2 deps b).result = .error .validation ∧
    (submit2 deps b).qInsertAttempted = false ∧
    (submit2 deps b).llmCalls = [] ∧
    (submit2 deps b).attempts = [] ∧
    (submit2 deps b).persisted = [] := by
  rcases hb with rfl | rfl <;> simp [submit1, submit2]

theorem c5_witness :
    ((some "" : Option String) = none ∨ (some "" : Option String) = some "") ∧
    ((submit1 ⟨fun _ => .ok 1, fun model _ => .ok model, fun _ => true⟩ (some "")).result =
        .error .validation ∧
      (submit1 ⟨fun _ => .ok 1, fun model _ => .ok model, fun _ => true⟩ (some "")).qInsertAttempted = false ∧
      (submit1 ⟨fun _ => .ok 1, fun model _ => .ok model, fun _ => true⟩ (some "")).llmCalls = [] ∧
      (submit1 ⟨fun _ => .ok 1, fun model _ => .ok model, fun _ => true⟩ (some "")).attempts = [] ∧
      (submit1 ⟨fun _ => .ok 1, fun model _ => .ok model, fun _ => true⟩ (some "")).persisted = [] ∧
      (submit2 ⟨fun _ => .ok 1, fun model _ => .ok model, fun _ => true⟩ (some "")).result =
        .error .validation ∧
      (submit2 ⟨fun _ => .ok 1, fun model _ => .ok model, fun _ => true⟩ (some "")).qInsertAttempted = false ∧
      (submit2 ⟨fun _ => .ok 1, fun model _ => .ok model, fun _ => true⟩ (some "")).llmCalls = [] ∧
      (submit2 ⟨fun _ => .ok 1, fun model _ => .ok model, fun _ => true⟩ (some "")).attempts = [] ∧
      (submit2 ⟨fun _ => .ok 1, fun model _ => .ok model, fun _ => true⟩ (some "")).persisted = []) :=
  ⟨Or.inr rfl,
    c5_validation ⟨fun _ => .ok 1, fun model _ => .ok model, fun _ => true⟩ (some "") (Or.inr rfl)⟩

/-! ## Claim C6: failed question insert aborts the call -/

/-- Claim C6: when persisting the question fails, the whole call answers the
storage error and no further work happens - no provider is invoked and no
answer row is submitted to the store, in all three iterations. -/
theorem c6_question_insert_failure (deps : Deps) (t : String)
    (ht : t ≠ "") (hq : deps.qInsert t = .error ()) :
    (submit1 deps (some t)).result = .error .storage ∧
    (submit1 deps (some t)).llmCalls = [] ∧
    (submit1 deps (some t)).attempts = [] ∧
    (submit1 deps (some t)).persisted = [] ∧
    (submit2 deps (some t)).result = .error .storage ∧
    (submit2 deps (some t)).llmCalls = [] ∧
    (submit2 deps (some t)).attempts = [] ∧
    (submit2 deps (some t)).persisted = [] := by
  simp [submit1, submit2, ht, hq]

theorem c6_witness :
    (("hola" : String) ≠ "" ∧
      Deps.qInsert ⟨fun _ => .error (), fun model _ => .ok model, fun _ => true⟩ "hola" = .error ()) ∧
    ((submit1 ⟨fun _ => .error (), fun model _ => .ok model, fun _ => true⟩ (some "hola")).result =
        .error .storage ∧
      (submit1 ⟨fun _ => .error (), fun model _ => .ok model, fun _ => true⟩ (some "hola")).llmCalls = [] ∧
      (submit1 ⟨fun _ => .error (), fun model _ => .ok model, fun _ => true⟩ (some "hola")).attempts = [] ∧
      (submit1 ⟨fun _ => .error (), fun model _ => .ok model, fun _ => true⟩ (some "hola")).persisted = [] ∧
      (submit2 ⟨fun _ => .error (), fun model _ => .ok model, fun _ => true⟩ (some "hola")).result =
        .error .storage ∧
      (submit2 ⟨fun _ => .error (), fun model _ => .ok model, fun _ => true⟩ (some "hola")).llmCalls = [] ∧
      (submit2 ⟨fun _ => .error (), fun model _ => .ok model, fun _ => true⟩ (some "hola")).attempts = [] ∧
      (submit2 ⟨fun _ => .error (), fun model _ => .ok model, fun _ => true⟩ (some "hola")).persisted = []) :=
  ⟨⟨by decide, rfl⟩,
    c6_question_insert_failure ⟨fun _ => .error (), fun model _ => .ok model, fun _ => true⟩ "hola"
      (by decide) rfl⟩

/-! ## Claim C3: the shape of the submit response -/

/-- Claim C3 (counterexample): the claim states that submit returns the
Question id, the original question text, and the per-provider result map.
In the second and third iterations the success JSON is only
`pregunta_id` and `respuestas`: for the question text `hola` (with every
collaborator succeeding) the response carries no question text at all
(`pregunta = none`), so the claim fails as stated for those iterations. -/
theorem c3_counterexample :
    (submit2 ⟨fun _ => .ok 1, fun model _ => .ok ("R-" ++ model), fun _ => true⟩
        (some "hola")).result =
      .ok { pregunta_id := 1
            pregunta := none
            respuestas :=
              [("Gemini", "R-Gemini"), ("ChatGPT", "R-ChatGPT"), ("Claude", "R-Claude")] } := by
  rfl

/-- Claim C3 (amended): for every non-empty question text (and a successful
question insert), submit answers successfully with the Question id and a
result map holding exactly one entry per configured provider - the generated
text for providers that succeed, an error placeholder for providers that
fail - regardless of how many providers fail; the first iteration
additionally echoes the original question text, while the second and third
iterations omit it. -/
theorem c3_amended (deps : Deps) (t : String) (qid : Nat)
    (ht : t ≠ "") (hq : deps.qInsert t = .ok qid) :
    ∃ r1 r2 : SubmitResp,
      (submit1 deps (some t)).result = .ok r1 ∧
      r1.pregunta_id = qid ∧
      r1.pregunta = some t ∧
      okeys r1.respuestas = models ∧
      (∀ m ∈ models, oget r1.respuestas m = some (respOf1 deps t m)) ∧
      (submit2 deps (some t)).result = .ok r2 ∧
      r2.pregunta_id = qid ∧
      r2.pregunta = none ∧
      okeys r2.respuestas = models ∧
      (∀ m ∈ models, oget r2.respuestas m = some (respOf2 deps t m)) := by
  refine
    ⟨{ pregunta_id := qid, pregunta := some t
       respuestas := (answerLoop1 deps t qid models ⟨[], [], [], []⟩).respuestas },
     { pregunta_id := qid, pregunta := none
       respuestas := (answerLoop2 deps t qid models ⟨[], [], [], []⟩).respuestas },
     ?_, rfl, rfl, ?_, ?_, ?_, rfl, rfl, ?_, ?_⟩
  · simp only [submit1, if_neg ht, hq]
  · rw [answerLoop1_spec]
    simp [models, okeys, oset]
  · rw [answerLoop1_spec]
    intro m hm
    simp only [models, List.mem_cons, List.not_mem_nil, or_false] at hm
    rcases hm with rfl | rfl | rfl <;> simp [models, oset, oget]
  · simp only [submit2, if_neg ht, hq]
  · rw [answerLoop2_spec]
    simp [models, okeys, oset]
  · rw [answerLoop2_spec]
    intro m hm
    simp only [models, List.mem_cons, List.not_mem_nil, or_false] at hm
    rcases hm with rfl | rfl | rfl <;> simp [models, oset, oget]

theorem c3_witness :
    (("hola" : String) ≠ "" ∧
      Deps.qInsert ⟨fun _ => .ok 7, fun model _ => .ok ("R-" ++ model), fun _ => true⟩ "hola" =
        .ok 7) ∧
    (∃ r1 r2 : SubmitResp,
      (submit1 ⟨fun _ => .ok 7, fun model _ => .ok ("R-" ++ model), fun _ => true⟩
          (some "hola")).result = .ok r1 ∧
      r1.pregunta_id = 7 ∧
      r1.pregunta = some "hola" ∧
      okeys r1.respuestas = models ∧
      (∀ m ∈ models, oget r1.respuestas m =
        some (respOf1 ⟨fun _ => .ok 7, fun model _ => .ok ("R-" ++ model), fun _ => true⟩ "hola" m)) ∧
      (submit2 ⟨fun _ => .ok 7, fun model _ => .ok ("R-" ++ model), fun _ => true⟩
          (some "hola")).result = .ok r2 ∧
      r2.pregunta_id = 7 ∧
      r2.pregunta = none ∧
      okeys r2.respuestas = models ∧
      (∀ m ∈ models, oget r2.respuestas m =
        some (respOf2 ⟨fun _ => .ok 7, fun model _ => .ok ("R-" ++ model), fun _ => true⟩ "hola" m))) :=
  ⟨⟨by decide, rfl⟩,
    c3_amended ⟨fun _ => .ok 7, fun model _ => .ok ("R-" ++ model), fun _ => true⟩ "hola" 7
      (by decide) rfl⟩

/-! ## Claim C4: partial failure counts -/

theorem length_filterMap_rowOf (deps : Deps) (t : String) (qid : Nat) :
    ∀ ms : List String,
      (ms.filterMap (rowOf deps t qid)).length +
        (ms.filter (fun m => llmFails deps t m)).length = ms.length := by
  intro ms
  induction ms with
  | nil => simp
  | cons m rest ih =>
    cases hm : deps.llm m t with
    | ok s =>
      have hrow : rowOf deps t qid m = some ⟨qid, m, s⟩ := by simp [rowOf, hm]
      have hval : llmFails deps t m = false := by simp [llmFails, hm]
      simp only [List.filterMap_cons, List.filter_cons, hrow, hval]
      simp only [Bool.false_eq_true, if_false, List.length_cons]
      omega
    | error e =>
      have hrow : rowOf deps t qid m = none := by simp [rowOf, hm]
      have hval : llmFails deps t m = true := by simp [llmFails, hm]
      simp only [List.filterMap_cons, List.filter_cons, hrow, hval, if_true, List.length_cons]
      omega

theorem respOf1_of_ok {deps : Deps} {t m s : String} (h : deps.llm m t = .ok s) :
    respOf1 deps t m = s := by
  simp [respOf1, h]

theorem respOf1_of_fails {deps : Deps} {t m : String} (h : llmFails deps t m = true) :
    respOf1 deps t m = "Error getting response from " ++ m := by
  unfold llmFails at h
  unfold respOf1
  cases hm : deps.llm m t with
  | ok s =>
    rw [hm] at h
    simp at h
  | error e => rfl

theorem respOf2_of_ok {deps : Deps} {t m s : String} (h : deps.llm m t = .ok s) :
    respOf2 deps t m = s := by
  simp [respOf2, h]

theorem respOf2_of_fails {deps : Deps} {t m : String} (h : llmFails deps t m = true) :
    respOf2 deps t m = "Error en modelo " ++ m := by
  unfold llmFails at h
  unfold respOf2
  cases hm : deps.llm m t with
  | ok s =>
    rw [hm] at h
    simp at h
  | error e => rfl

/-- Claim C4 (counterexample): the claim states that when exactly `k` of the
`n` providers fail generation, exactly `n - k` answers are persisted.  With
every generation succeeding (`k = 0`) but the store rejecting the ChatGPT
row, only 2 of the `n - k = 3` answer rows are persisted. -/
theorem c4_counterexample :
    (models.filter (fun m =>
        llmFails
          ⟨fun _ => .ok 1, fun model _ => .ok ("R-" ++ model),
            fun row => row.modelo_llm != "ChatGPT"⟩ "q" m)).length = 0 ∧
    (submit1
        ⟨fun _ => .ok 1, fun model _ => .ok ("R-" ++ model),
          fun row => row.modelo_llm != "ChatGPT"⟩ (some "q")).persisted.length = 2 ∧
    models.length = 3 := by
  refine ⟨?_, ?_, ?_⟩ <;> rfl

/-- Claim C4 (amended): when exactly `k` of the `n` configured providers fail
generation, the response holds `n` entries - the generated text for the
`n - k` succeeding providers, an error placeholder for the `k` failing
ones - and exactly `n - k` answer rows are submitted to the store; the
persisted answers are exactly the submitted rows the store accepts, so when
every submitted insert succeeds exactly `n - k` answers are persisted.  (The
second and third iterations submit and persist the same rows.) -/
theorem c4_amended (deps : Deps) (t : String) (qid : Nat)
    (ht : t ≠ "") (hq : deps.qInsert t = .ok qid) :
    ∃ r1 : SubmitResp,
      (submit1 deps (some t)).result = .ok r1 ∧
      okeys r1.respuestas = models ∧
      (∀ m ∈ models, ∀ s, deps.llm m t = .ok s → oget r1.respuestas m = some s) ∧
      (∀ m ∈ models, llmFails deps t m = true →
        oget r1.respuestas m = some ("Error getting response from " ++ m)) ∧
      (submit1 deps (some t)).attempts.length +
          (models.filter (fun m => llmFails deps t m)).length = models.length ∧
      (submit1 deps (some t)).persisted =
        (submit1 deps (some t)).attempts.filter (fun row => deps.aInsert row) ∧
      ((∀ row ∈ (submit1 deps (some t)).attempts, deps.aInsert row = true) →
        (submit1 deps (some t)).persisted.length +
          (models.filter (fun m => llmFails deps t m)).length = models.length) ∧
      (submit2 deps (some t)).attempts = (submit1 deps (some t)).attempts ∧
      (submit2 deps (some t)).persisted = (submit1 deps (some t)).persisted := by
  have hs1 : submit1 deps (some t) =
      { result := .ok { pregunta_id := qid, pregunta := some t
                        respuestas := (answerLoop1 deps t qid models ⟨[], [], [], []⟩).respuestas }
        qInsertAttempted := true
        llmCalls := (answerLoop1 deps t qid models ⟨[], [], [], []⟩).llmCalls
        attempts := (answerLoop1 deps t qid models ⟨[], [], [], []⟩).attempts
        persisted := (answerLoop1 deps t qid models ⟨[], [], [], []⟩).persisted } := by
    simp only [submit1, if_neg ht, hq]
  have hs2 : submit2 deps (some t) =
      { result := .ok { pregunta_id := qid, pregunta := none
                        respuestas := (answerLoop2 deps t qid models ⟨[], [], [], []⟩).respuestas }
        qInsertAttempted := true
        llmCalls := (answerLoop2 deps t qid models ⟨[], [], [], []⟩).llmCalls
        attempts := (answerLoop2 deps t qid models ⟨[], [], [], []⟩).attempts
        persisted := (answerLoop2 deps t qid models ⟨[], [], [], []⟩).persisted } := by
    simp only [submit2, if_neg ht, hq]
  have hatt : (answerLoop1 deps t qid models ⟨[], [], [], []⟩).attempts =
      models.filterMap (rowOf deps t qid) := by
    rw [answerLoop1_spec]
    simp
  have hper : (answerLoop1 deps t qid models ⟨[], [], [], []⟩).persisted =
      (models.filterMap (rowOf deps t qid)).filter (fun row => deps.aInsert row) := by
    rw [answerLoop1_spec]
    simp
  refine
    ⟨{ pregunta_id := qid, pregunta := some t
       respuestas := (answerLoop1 deps t qid models ⟨[], [], [], []⟩).respuestas },
     by rw [hs1], ?_, ?_, ?_, ?_, ?_, ?_, ?_, ?_⟩
  · rw [answerLoop1_spec]
    simp [models, okeys, oset]
  · rw [answerLoop1_spec]
    intro m hm s hsm
    simp only [models, List.mem_cons, List.not_mem_nil, or_false] at hm
    rcases hm with rfl | rfl | rfl <;>
      simp [models, oset, oget, respOf1_of_ok hsm]
  · rw [answerLoop1_spec]
    intro m hm hfail
    simp only [models, List.mem_cons, List.not_mem_nil, or_false] at hm
    rcases hm with rfl | rfl | rfl <;>
      simp [models, oset, oget, respOf1_of_fails hfail]
  · rw [hs1]
    simp only [hatt]
    exact length_filterMap_rowOf deps t qid models
  · rw [hs1]
    simp only [hatt, hper]
  · intro hall
    rw [hs1] at hall ⊢
    simp only [hatt, hper] at hall ⊢
    rw [List.filter_eq_self.mpr hall]
    exact length_filterMap_rowOf deps t qid models
  · rw [hs1, hs2, answerLoop1_spec, answerLoop2_spec]
  · rw [hs1, hs2, answerLoop1_spec, answerLoop2_spec]

theorem c4_witness :
    (("q" : String) ≠ "" ∧
      Deps.qInsert ⟨fun _ => .ok 5, fun model _ => .ok ("R-" ++ model), fun _ => true⟩ "q" =
        .ok 5) ∧
    (∃ r1 : SubmitResp,
      (submit1 ⟨fun _ => .ok 5, fun model _ => .ok ("R-" ++ model), fun _ => true⟩
          (some "q")).result = .ok r1 ∧
      okeys r1.respuestas = models ∧
      (∀ m ∈ models, ∀ s,
        Deps.llm ⟨fun _ => .ok 5, fun model _ => .ok ("R-" ++ model), fun _ => true⟩ m "q" =
          .ok s →
        oget r1.respuestas m = some s) ∧
      (∀ m ∈ models,
        llmFails ⟨fun _ => .ok 5, fun model _ => .ok ("R-" ++ model), fun _ => true⟩ "q" m = true →
        oget r1.respuestas m = some ("Error getting response from " ++ m)) ∧
      (submit1 ⟨fun _ => .ok 5, fun model _ => .ok ("R-" ++ model), fun _ => true⟩
            (some "q")).attempts.length +
          (models.filter (fun m =>
            llmFails ⟨fun _ => .ok 5, fun model _ => .ok ("R-" ++ model), fun _ => true⟩
              "q" m)).length = models.length ∧
      (submit1 ⟨fun _ => .ok 5, fun model _ => .ok ("R-" ++ model), fun _ => true⟩
          (some "q")).persisted =
        (submit1 ⟨fun _ => .ok 5, fun model _ => .ok ("R-" ++ model), fun _ => true⟩
            (some "q")).attempts.filter (fun row =>
          Deps.aInsert ⟨fun _ => .ok 5, fun model _ => .ok ("R-" ++ model), fun _ => true⟩ row) ∧
      ((∀ row ∈ (submit1 ⟨fun _ => .ok 5, fun model _ => .ok ("R-" ++ model), fun _ => true⟩
            (some "q")).attempts,
          Deps.aInsert ⟨fun _ => .ok 5, fun model _ => .ok ("R-" ++ model), fun _ => true⟩ row =
            true) →
        (submit1 ⟨fun _ => .ok 5, fun model _ => .ok ("R-" ++ model), fun _ => true⟩
              (some "q")).persisted.length +
            (models.filter (fun m =>
              llmFails ⟨fun _ => .ok 5, fun model _ => .ok ("R-" ++ model), fun _ => true⟩
                "q" m)).length = models.length) ∧
      (submit2 ⟨fun _ => .ok 5, fun model _ => .ok ("R-" ++ model), fun _ => true⟩
          (some "q")).attempts =
        (submit1 ⟨fun _ => .ok 5, fun model _ => .ok ("R-" ++ model), fun _ => true⟩
            (some "q")).attempts ∧
      (submit2 ⟨fun _ => .ok 5, fun model _ => .ok ("R-" ++ model), fun _ => true⟩
          (some "q")).persisted =
        (submit1 ⟨fun _ => .ok 5, fun model _ => .ok ("R-" ++ model), fun _ => true⟩
            (some "q")).persisted) :=
  ⟨⟨by decide, rfl⟩,
    c4_amended ⟨fun _ => .ok 5, fun model _ => .ok ("R-" ++ model), fun _ => true⟩ "q" 5
      (by decide) rfl⟩

/-! ## Claim C9: answer-insert failures are invisible in the response -/

theorem respOf1_update_aInsert (deps : Deps) (f : RespRec → Bool) (t model : String) :
    respOf1 { deps with aInsert := f } t model = respOf1 deps t model := rfl

theorem respOf2_update_aInsert (deps : Deps) (f : RespRec → Bool) (t model : String) :
    respOf2 { deps with aInsert := f } t model = respOf2 deps t model := rfl

theorem answerLoop1_respuestas_aInsert (deps : Deps) (f : RespRec → Bool)
    (t : String) (qid : Nat) (ms : List String) (acc : LoopAcc) :
    (answerLoop1 { deps with aInsert := f } t qid ms acc).respuestas =
      (answerLoop1 deps t qid ms acc).respuestas := by
  rw [answerLoop1_spec, answerLoop1_spec]
  simp [respOf1_update_aInsert]

theorem answerLoop2_respuestas_aInsert (deps : Deps) (f : RespRec → Bool)
    (t : String) (qid : Nat) (ms : List String) (acc : LoopAcc) :
    (answerLoop2 { deps with aInsert := f } t qid ms acc).respuestas =
      (answerLoop2 deps t qid ms acc).respuestas := by
  rw [answerLoop2_spec, answerLoop2_spec]
  simp [respOf2_update_aInsert]

/-- Claim C9: when generation succeeds for a provider, the result map holds
that provider's generated text and the overall response is successful; and
the response is a function of everything except the answer-insert outcomes,
so a failed answer insert is not reflected anywhere in the response (in all
three iterations). -/
theorem c9_insert_failures_invisible (deps : Deps) (t : String) (qid : Nat)
    (m s : String) (f : RespRec → Bool)
    (ht : t ≠ "") (hq : deps.qInsert t = .ok qid) (hm : m ∈ models)
    (hs : deps.llm m t = .ok s) :
    (∃ r1, (submit1 deps (some t)).result = .ok r1 ∧ oget r1.respuestas m = some s) ∧
    (∃ r2, (submit2 deps (some t)).result = .ok r2 ∧ oget r2.respuestas m = some s) ∧
    (∀ b, (submit1 { deps with aInsert := f } b).result = (submit1 deps b).result) ∧
    (∀ b, (submit2 { deps with aInsert := f } b).result = (submit2 deps b).result) := by
  obtain ⟨r1, r2, h1, -, -, -, hv1, h2, -, -, -, hv2⟩ := c3_amended deps t qid ht hq
  refine ⟨⟨r1, h1, ?_⟩, ⟨r2, h2, ?_⟩, ?_, ?_⟩
  · rw [hv1 m hm, respOf1_of_ok hs]
  · rw [hv2 m hm, respOf2_of_ok hs]
  · intro b
    match b with
    | none => rfl
    | some u =>
      by_cases hu : u = ""
      · subst hu
        rfl
      · simp only [submit1, if_neg hu]
        cases hqu : deps.qInsert u with
        | ok q => simp [answerLoop1_respuestas_aInsert]
        | error e => simp
  · intro b
    match b with
    | none => rfl
    | some u =>
      by_cases hu : u = ""
      · subst hu
        rfl
      · simp only [submit2, if_neg hu]
        cases hqu : deps.qInsert u with
        | ok q => simp [answerLoop2_respuestas_aInsert]
        | error e => simp

theorem c9_witness :
    (("q" : String) ≠ "" ∧
      Deps.qInsert ⟨fun _ => .ok 2, fun model _ => .ok ("R-" ++ model), fun _ => false⟩ "q" =
        .ok 2 ∧
      "Gemini" ∈ models ∧
      Deps.llm ⟨fun _ => .ok 2, fun model _ => .ok ("R-" ++ model), fun _ => false⟩ "Gemini" "q" =
        .ok "R-Gemini") ∧
    ((∃ r1, (submit1 ⟨fun _ => .ok 2, fun model _ => .ok ("R-" ++ model), fun _ => false⟩
          (some "q")).result = .ok r1 ∧ oget r1.respuestas "Gemini" = some "R-Gemini") ∧
      (∃ r2, (submit2 ⟨fun _ => .ok 2, fun model _ => .ok ("R-" ++ model), fun _ => false⟩
          (some "q")).result = .ok r2 ∧ oget r2.respuestas "Gemini" = some "R-Gemini") ∧
      (∀ b, (submit1 { (⟨fun _ => .ok 2, fun model _ => .ok ("R-" ++ model), fun _ => false⟩ : Deps)
            with aInsert := fun _ => true } b).result =
        (submit1 ⟨fun _ => .ok 2, fun model _ => .ok ("R-" ++ model), fun _ => false⟩ b).result) ∧
      (∀ b, (submit2 { (⟨fun _ => .ok 2, fun model _ => .ok ("R-" ++ model), fun _ => false⟩ : Deps)
            with aInsert := fun _ => true } b).result =
        (submit2 ⟨fun _ => .ok 2, fun model _ => .ok ("R-" ++ model), fun _ => false⟩ b).result)) :=
  ⟨⟨by decide, rfl, by decide, rfl⟩,
    c9_insert_failures_invisible
      ⟨fun _ => .ok 2, fun model _ => .ok ("R-" ++ model), fun _ => false⟩ "q" 2
      "Gemini" "R-Gemini" (fun _ => true) (by decide) rfl (by decide) rfl⟩

/-! ## Claim C8: aggregation is pure -/

/-- Claim C8: the aggregation is a pure function of the brand set and the
answer corpus - it holds no state between calls - so computing it twice over
an unchanged corpus yields identical results: the same totals, breakdowns,
chart summary and counts. -/
theorem c8_aggregate_pure (marcas : List Marca) (respuestas : List Respuesta)
    (r1 r2 : DashboardData)
    (h1 : aggregate marcas respuestas = some r1)
    (h2 : aggregate marcas respuestas = some r2) :
    r1 = r2 := by
  rw [h1] at h2
  exact Option.some.inj h2

theorem c8_witness :
    (aggregate [⟨"nike"⟩] [⟨"Gemini", "nike rocks"⟩] =
        some { brandMentions := [("nike", some 1)]
               modelBrandMentions :=
                 [("nike", [("Gemini", some 1), ("ChatGPT", some 0), ("Claude", some 0)])]
               pieLabels := ["nike"]
               pieData := [some 1]
               totalResponses := 1
               totalBrands := 1 } ∧
      aggregate [⟨"nike"⟩] [⟨"Gemini", "nike rocks"⟩] =
        some { brandMentions := [("nike", some 1)]
               modelBrandMentions :=
                 [("nike", [("Gemini", some 1), ("ChatGPT", some 0), ("Claude", some 0)])]
               pieLabels := ["nike"]
               pieData := [some 1]
               totalResponses := 1
               totalBrands := 1 }) ∧
    ({ brandMentions := [("nike", some 1)]
       modelBrandMentions :=
         [("nike", [("Gemini", some 1), ("ChatGPT", some 0), ("Claude", some 0)])]
       pieLabels := ["nike"]
       pieData := [some 1]
       totalResponses := 1
       totalBrands := 1 } : DashboardData) =
      { brandMentions := [("nike", some 1)]
        modelBrandMentions :=
          [("nike", [("Gemini", some 1), ("ChatGPT", some 0), ("Claude", some 0)])]
        pieLabels := ["nike"]
        pieData := [some 1]
        totalResponses := 1
        totalBrands := 1 } :=
  ⟨⟨by decide, by decide⟩,
    c8_aggregate_pure [⟨"nike"⟩] [⟨"Gemini", "nike rocks"⟩] _ _ (by decide) (by decide)⟩

/-! ## Library lemmas: folds in the `Option` monad -/

theorem foldlM_option_cons {α β : Type} (f : β → α → Option β) (b : β) (x : α) (l : List α) :
    (x :: l).foldlM f b = (f b x).bind (fun b' => l.foldlM f b') := by
  simp [List.foldlM_cons, Option.bind_eq_bind]

theorem foldlM_option_append {α β : Type} (f : β → α → Option β) :
    ∀ (l₁ l₂ : List α) (b : β),
      (l₁ ++ l₂).foldlM f b = (l₁.foldlM f b).bind (fun b' => l₂.foldlM f b') := by
  intro l₁
  induction l₁ with
  | nil => intro l₂ b; simp
  | cons x l ih =>
    intro l₂ b
    rw [List.cons_append, foldlM_option_cons, foldlM_option_cons]
    cases f b x with
    | none => simp
    | some b' => simp [ih]

theorem foldlM_option_preserve {α β : Type} (f : β → α → Option β) (P : β → Prop) :
    ∀ (l : List α), (∀ b a b', a ∈ l → f b a = some b' → P b → P b') →
      ∀ (b b' : β), l.foldlM f b = some b' → P b → P b' := by
  intro l
  induction l with
  | nil =>
    intro _ b b' h hP
    simp only [List.foldlM_nil, Option.pure_def, Option.some.injEq] at h
    exact h ▸ hP
  | cons x xs ih =>
    intro hf b b' h hP
    rw [foldlM_option_cons] at h
    cases hx : f b x with
    | none => rw [hx] at h; simp at h
    | some b₁ =>
      rw [hx] at h
      simp only [Option.some_bind] at h
      exact ih (fun b a b₂ ha => hf b a b₂ (List.mem_cons_of_mem _ ha)) b₁ b' h
        (hf b x b₁ (List.mem_cons_self _ _) hx hP)

theorem foldlM_option_total {α β : Type} (f : β → α → Option β) (P : β → Prop) :
    ∀ (l : List α), (∀ b a, a ∈ l → P b → ∃ b', f b a = some b' ∧ P b') →
      ∀ b : β, P b → ∃ b', l.foldlM f b = some b' ∧ P b' := by
  intro l
  induction l with
  | nil =>
    intro _ b hP
    exact ⟨b, by simp, hP⟩
  | cons x xs ih =>
    intro hf b hP
    obtain ⟨b₁, hx, hP₁⟩ := hf b x (List.mem_cons_self _ _) hP
    obtain ⟨b', hfold, hP'⟩ :=
      ih (fun b a ha => hf b a (List.mem_cons_of_mem _ ha)) b₁ hP₁
    exact ⟨b', by rw [foldlM_option_cons, hx, Option.some_bind, hfold], hP'⟩

theorem mem_oset {α : Type} {o : List (String × α)} {k : String} {v : α} :
    ∀ kv ∈ oset o k v, kv ∈ o ∨ kv = (k, v) := by
  induction o with
  | nil => simp [oset]
  | cons hd rest ih =>
    intro kv hkv
    by_cases hk : hd.1 = k
    · simp only [oset, if_pos hk] at hkv
      rcases List.mem_cons.mp hkv with h | h
      · right; exact h
      · left; exact List.mem_cons_of_mem _ h
    · simp only [oset, if_neg hk] at hkv
      rcases List.mem_cons.mp hkv with h | h
      · left; exact h ▸ List.mem_cons_self _ _
      · rcases ih kv h with h' | h'
        · left; exact List.mem_cons_of_mem _ h'
        · right; exact h'

/-! ## Library lemmas: the per-brand counting step -/

theorem brandStep1_inv {texto modelo : String} {st st' : CountSt} {m : Marca}
    (h : brandStep1 texto modelo st m = some st') :
    ∃ cnt, countMentions (jsToLower m.nombre_marca) texto = some cnt ∧
      ((¬cnt > 0) ∧ st' = st ∨
        cnt > 0 ∧ ∃ inner, oget st.2 m.nombre_marca = some inner ∧
          st'.1 = oplusEq st.1 m.nombre_marca cnt ∧
          ((oget inner modelo).isSome = true ∧
              st'.2 = oset st.2 m.nombre_marca (oplusEq inner modelo cnt) ∨
            (oget inner modelo).isSome = false ∧ st'.2 = st.2)) := by
  unfold brandStep1 at h
  cases hc : countMentions (jsToLower m.nombre_marca) texto with
  | none =>
    rw [hc] at h
    simp at h
  | some cnt =>
    rw [hc] at h
    simp only [Option.bind_eq_bind, Option.some_bind] at h
    refine ⟨cnt, rfl, ?_⟩
    by_cases hpos : cnt > 0
    · rw [if_pos hpos] at h
      cases hg : oget st.2 m.nombre_marca with
      | none =>
        rw [hg] at h
        simp at h
      | some inner =>
        rw [hg] at h
        simp only [Option.bind_eq_bind, Option.some_bind] at h
        by_cases hck : (oget inner modelo).isSome = true
        · rw [if_pos hck] at h
          simp only [Option.pure_def, Option.some.injEq] at h
          subst h
          exact Or.inr ⟨hpos, inner, rfl, rfl, Or.inl ⟨hck, rfl⟩⟩
        · rw [if_neg hck] at h
          simp only [Option.pure_def, Option.some.injEq] at h
          subst h
          exact Or.inr ⟨hpos, inner, rfl, rfl, Or.inr ⟨by simpa using hck, rfl⟩⟩
    · rw [if_neg hpos] at h
      simp only [Option.pure_def, Option.some.injEq] at h
      exact Or.inl ⟨hpos, h.symm⟩

theorem brandStep3_inv {texto modelo : String} {st st' : CountSt} {m : Marca}
    (h : brandStep3 texto modelo st m = some st') :
    ∃ cnt, countMentions (jsToLower m.nombre_marca) texto = some cnt ∧
      ((¬cnt > 0) ∧ st' = st ∨
        cnt > 0 ∧ ∃ inner, oget st.2 m.nombre_marca = some inner ∧
          st'.1 = oplusEq st.1 m.nombre_marca cnt ∧
          st'.2 = oset st.2 m.nombre_marca (oplusEq inner modelo cnt)) := by
  unfold brandStep3 at h
  cases hc : countMentions (jsToLower m.nombre_marca) texto with
  | none =>
    rw [hc] at h
    simp at h
  | some cnt =>
    rw [hc] at h
    simp only [Option.bind_eq_bind, Option.some_bind] at h
    refine ⟨cnt, rfl, ?_⟩
    by_cases hpos : cnt > 0
    · rw [if_pos hpos] at h
      cases hg : oget st.2 m.nombre_marca with
      | none =>
        rw [hg] at h
        simp at h
      | some inner =>
        rw [hg] at h
        simp only [Option.bind_eq_bind, Option.some_bind] at h
        simp only [Option.pure_def, Option.some.injEq] at h
        subst h
        exact Or.inr ⟨hpos, inner, rfl, rfl, rfl⟩
    · rw [if_neg hpos] at h
      simp only [Option.pure_def, Option.some.injEq] at h
      exact Or.inl ⟨hpos, h.symm⟩

theorem countMentions_isSome (nombre texto : String)
    (hp : (parseRegex nombre.toList).isSome = true) :
    ∃ cnt, countMentions nombre texto = some cnt := by
  obtain ⟨pr, hpr⟩ := Option.isSome_iff_exists.mp hp
  refine ⟨gcount pr texto.toList, ?_⟩
  unfold countMentions
  rw [hpr]
  rfl

theorem brandStep1_total {texto modelo : String} {st : CountSt} (m : Marca)
    (hp : (parseRegex (jsToLower m.nombre_marca).toList).isSome = true)
    (hpres : (oget st.2 m.nombre_marca).isSome = true) :
    ∃ st', brandStep1 texto modelo st m = some st' := by
  obtain ⟨cnt, hc⟩ := countMentions_isSome (jsToLower m.nombre_marca) texto hp
  obtain ⟨inner, hg⟩ := Option.isSome_iff_exists.mp hpres
  unfold brandStep1
  rw [hc]
  simp only [Option.bind_eq_bind, Option.some_bind]
  by_cases hpos : cnt > 0
  · rw [if_pos hpos, hg]
    simp only [Option.some_bind]
    by_cases hck : (oget inner modelo).isSome = true
    · rw [if_pos hck]
      exact ⟨_, rfl⟩
    · rw [if_neg hck]
      exact ⟨_, rfl⟩
  · rw [if_neg hpos]
    exact ⟨st, rfl⟩

theorem brandStep3_total {texto modelo : String} {st : CountSt} (m : Marca)
    (hp : (parseRegex (jsToLower m.nombre_marca).toList).isSome = true)
    (hpres : (oget st.2 m.nombre_marca).isSome = true) :
    ∃ st', brandStep3 texto modelo st m = some st' := by
  obtain ⟨cnt, hc⟩ := countMentions_isSome (jsToLower m.nombre_marca) texto hp
  obtain ⟨inner, hg⟩ := Option.isSome_iff_exists.mp hpres
  unfold brandStep3
  rw [hc]
  simp only [Option.bind_eq_bind, Option.some_bind]
  by_cases hpos : cnt > 0
  · rw [if_pos hpos, hg]
    simp only [Option.some_bind]
    exact ⟨_, rfl⟩
  · rw [if_neg hpos]
    exact ⟨st, rfl⟩

/-! ## Library lemmas: the initialization loop -/

theorem oget_oplusEq_self (o : List (String × JsNum)) (k : String) (n : Nat) :
    oget (oplusEq o k n) k = some (jsAdd ((oget o k).getD none) n) := by
  unfold oplusEq
  rw [oget_oset_self]

theorem oget_oplusEq_ne (o : List (String × JsNum)) (k k' : String) (n : Nat)
    (h : k' ≠ k) : oget (oplusEq o k n) k' = oget o k' := by
  unfold oplusEq
  rw [oget_oset_ne _ _ _ _ h]

theorem jsAdd_zero (t : JsNum) : jsAdd t 0 = t := by
  cases t <;> simp [jsAdd]

theorem initFold_prop (marcas : List Marca) :
    ∀ acc : CountSt,
      (∀ nm inner, oget acc.2 nm = some inner →
        inner = innerInit ∧ oget acc.1 nm = some (some 0)) →
      ∀ nm inner, oget (marcas.foldl initStep acc).2 nm = some inner →
        inner = innerInit ∧ oget (marcas.foldl initStep acc).1 nm = some (some 0) := by
  induction marcas with
  | nil => intro acc h; simpa using h
  | cons m rest ih =>
    intro acc h
    rw [List.foldl_cons]
    apply ih
    intro nm inner hg
    by_cases hnm : nm = m.nombre_marca
    · subst hnm
      simp only [initStep, oget_oset_self, Option.some.injEq] at hg
      exact ⟨hg.symm, by simp [initStep, oget_oset_self]⟩
    · simp only [initStep, oget_oset_ne _ _ _ _ hnm] at hg
      obtain ⟨h1, h2⟩ := h nm inner hg
      exact ⟨h1, by simp only [initStep, oget_oset_ne _ _ _ _ hnm]; exact h2⟩

theorem initFold_mono (marcas : List Marca) :
    ∀ (acc : CountSt) (nm : String), (oget acc.2 nm).isSome = true →
      (oget (marcas.foldl initStep acc).2 nm).isSome = true := by
  induction marcas with
  | nil => intro acc nm h; simpa using h
  | cons m rest ih =>
    intro acc nm h
    rw [List.foldl_cons]
    exact ih _ nm (oget_oset_isSome _ _ _ _ h)

theorem initFold_mem (marcas : List Marca) :
    ∀ (acc : CountSt), ∀ m ∈ marcas,
      (oget (marcas.foldl initStep acc).2 m.nombre_marca).isSome = true := by
  induction marcas with
  | nil => intro acc m h; simp at h
  | cons m0 rest ih =>
    intro acc m hm
    rw [List.foldl_cons]
    rcases List.mem_cons.mp hm with rfl | hm'
    · apply initFold_mono
      simp [initStep, oget_oset_self]
    · exact ih _ m hm'

theorem initCounters_prop (marcas : List Marca) :
    ∀ nm inner, oget (initCounters marcas).2 nm = some inner →
      inner = innerInit ∧ oget (initCounters marcas).1 nm = some (some 0) := by
  unfold initCounters
  exact initFold_prop marcas ([], []) (by intro nm inner h; simp [oget] at h)

theorem initCounters_mem (marcas : List Marca) :
    ∀ m ∈ marcas, (oget (initCounters marcas).2 m.nombre_marca).isSome = true := by
  unfold initCounters
  exact initFold_mem marcas ([], [])

/-! ## Library lemmas: invariants of the counting scan -/

theorem brandStep1_pres2 {texto modelo : String} {st st' : CountSt} {m : Marca}
    (h : brandStep1 texto modelo st m = some st') :
    ∀ nm, (oget st.2 nm).isSome = true → (oget st'.2 nm).isSome = true := by
  obtain ⟨cnt, hc, hcase⟩ := brandStep1_inv h
  rcases hcase with ⟨_, rfl⟩ | ⟨hpos, inner, hg, hbm, hcase2⟩
  · exact fun nm h' => h'
  · rcases hcase2 with ⟨hck, hmb⟩ | ⟨hck, hmb⟩
    · intro nm h'
      rw [hmb]
      exact oget_oset_isSome _ _ _ _ h'
    · intro nm h'
      rw [hmb]
      exact h'

theorem brandStep3_pres2 {texto modelo : String} {st st' : CountSt} {m : Marca}
    (h : brandStep3 texto modelo st m = some st') :
    ∀ nm, (oget st.2 nm).isSome = true → (oget st'.2 nm).isSome = true := by
  obtain ⟨cnt, hc, hcase⟩ := brandStep3_inv h
  rcases hcase with ⟨_, rfl⟩ | ⟨hpos, inner, hg, hbm, hmb⟩
  · exact fun nm h' => h'
  · intro nm h'
    rw [hmb]
    exact oget_oset_isSome _ _ _ _ h'

theorem brandStep1_KInv {texto modelo : String} {st st' : CountSt} {m : Marca}
    {marcas : List Marca}
    (h : brandStep1 texto modelo st m = some st')
    (hK : KInv marcas st) : KInv marcas st' := by
  obtain ⟨cnt, hc, hcase⟩ := brandStep1_inv h
  rcases hcase with ⟨_, rfl⟩ | ⟨hpos, inner, hg, hbm, hcase2⟩
  · exact hK
  · rcases hcase2 with ⟨hck, hmb⟩ | ⟨hck, hmb⟩
    · constructor
      · intro m' hm'
        rw [hmb]
        exact oget_oset_isSome _ _ _ _ (hK.1 m' hm')
      · intro nm inner' hg'
        rw [hmb] at hg'
        by_cases hnm : nm = m.nombre_marca
        · subst hnm
          rw [oget_oset_self] at hg'
          have hkeys := hK.2 _ inner hg
          have hmem : modelo ∈ okeys inner := (oget_isSome_iff_mem inner modelo).mp hck
          rw [← Option.some.inj hg']
          unfold oplusEq
          rw [okeys_oset_mem _ _ _ hmem]
          exact hkeys
        · rw [oget_oset_ne _ _ _ _ hnm] at hg'
          exact hK.2 nm inner' hg'
    · constructor
      · intro m' hm'
        rw [hmb]
        exact hK.1 m' hm'
      · intro nm inner' hg'
        rw [hmb] at hg'
        exact hK.2 nm inner' hg'

theorem countStep1_KInv {marcas : List Marca} {st st' : CountSt} {r : Respuesta}
    (h : countStep1 marcas st r = some st') (hK : KInv marcas st) : KInv marcas st' := by
  unfold countStep1 at h
  exact foldlM_option_preserve _ (KInv marcas) marcas
    (fun b a b' _ hb hP => brandStep1_KInv hb hP) st st' h hK

theorem countStep1_total {marcas : List Marca} {st : CountSt} (r : Respuesta)
    (hB : BrandsOk marcas)
    (hpres : ∀ m ∈ marcas, (oget st.2 m.nombre_marca).isSome = true) :
    ∃ st', countStep1 marcas st r = some st' ∧
      ∀ m ∈ marcas, (oget st'.2 m.nombre_marca).isSome = true := by
  unfold countStep1
  exact foldlM_option_total (brandStep1 (jsToLower r.texto_respuesta) r.modelo_llm)
    (fun b => ∀ m ∈ marcas, (oget b.2 m.nombre_marca).isSome = true) marcas
    (fun b a ha hP => by
      obtain ⟨b', hb'⟩ := brandStep1_total a (hB a ha) (hP a ha)
      exact ⟨b', hb', fun m hm => brandStep1_pres2 hb' _ (hP m hm)⟩)
    st hpres

theorem countStep3_total {marcas : List Marca} {st : CountSt} (r : Respuesta)
    (hB : BrandsOk marcas)
    (hpres : ∀ m ∈ marcas, (oget st.2 m.nombre_marca).isSome = true) :
    ∃ st', countStep3 marcas st r = some st' ∧
      ∀ m ∈ marcas, (oget st'.2 m.nombre_marca).isSome = true := by
  unfold countStep3
  exact foldlM_option_total (brandStep3 (jsToLower r.texto_respuesta) r.modelo_llm)
    (fun b => ∀ m ∈ marcas, (oget b.2 m.nombre_marca).isSome = true) marcas
    (fun b a ha hP => by
      obtain ⟨b', hb'⟩ := brandStep3_total a (hB a ha) (hP a ha)
      exact ⟨b', hb', fun m hm => brandStep3_pres2 hb' _ (hP m hm)⟩)
    st hpres

theorem aggregate_state {marcas : List Marca} {respuestas : List Respuesta}
    {r : DashboardData} (h : aggregate marcas respuestas = some r) :
    ∃ st : CountSt,
      respuestas.foldlM (countStep1 marcas) (initCounters marcas) = some st ∧
      r.brandMentions = st.1 ∧ r.modelBrandMentions = st.2 := by
  unfold aggregate at h
  cases hf : respuestas.foldlM (countStep1 marcas) (initCounters marcas) with
  | none =>
    rw [hf] at h
    simp at h
  | some st =>
    rw [hf] at h
    simp only [Option.bind_eq_bind, Option.some_bind, Option.pure_def,
      Option.some.injEq] at h
    subst h
    exact ⟨st, rfl, rfl, rfl⟩

theorem aggregateV3_state {marcas : List Marca} {respuestas : List Respuesta}
    {r : DashboardData} (h : aggregateV3 marcas respuestas = some r) :
    ∃ st : CountSt,
      respuestas.foldlM (countStep3 marcas) (initCounters marcas) = some st ∧
      r.brandMentions = st.1 ∧ r.modelBrandMentions = st.2 := by
  unfold aggregateV3 at h
  cases hf : respuestas.foldlM (countStep3 marcas) (initCounters marcas) with
  | none =>
    rw [hf] at h
    simp at h
  | some st =>
    rw [hf] at h
    simp only [Option.bind_eq_bind, Option.some_bind, Option.pure_def,
      Option.some.injEq] at h
    subst h
    exact ⟨st, rfl, rfl, rfl⟩

theorem KInv_init (marcas : List Marca) : KInv marcas (initCounters marcas) := by
  constructor
  · exact initCounters_mem marcas
  · intro nm inner hg
    rw [(initCounters_prop marcas nm inner hg).1]

theorem aggregate_fold_total (marcas : List Marca) (respuestas : List Respuesta)
    (hB : BrandsOk marcas) :
    ∃ st, respuestas.foldlM (countStep1 marcas) (initCounters marcas) = some st ∧
      KInv marcas st := by
  apply foldlM_option_total (countStep1 marcas) (KInv marcas) respuestas
  · intro st a _ hK
    obtain ⟨st', hst', _⟩ := countStep1_total a hB hK.1
    exact ⟨st', hst', countStep1_KInv hst' hK⟩
  · exact KInv_init marcas

theorem brandStep3_KInv3 {texto modelo : String} {st st' : CountSt} {m : Marca}
    {marcas : List Marca}
    (h : brandStep3 texto modelo st m = some st')
    (hK : KInv3 marcas st) : KInv3 marcas st' := by
  obtain ⟨cnt, hc, hcase⟩ := brandStep3_inv h
  rcases hcase with ⟨_, rfl⟩ | ⟨hpos, inner, hg, hbm, hmb⟩
  · exact hK
  · constructor
    · intro m' hm'
      rw [hmb]
      exact oget_oset_isSome _ _ _ _ (hK.1 m' hm')
    · intro nm inner' hg' k v hk hkmod
      rw [hmb] at hg'
      by_cases hnm : nm = m.nombre_marca
      · subst hnm
        rw [oget_oset_self] at hg'
        rw [← Option.some.inj hg'] at hk
        by_cases hkm : k = modelo
        · subst hkm
          rw [oget_oplusEq_self] at hk
          have hnone : (oget inner k).getD none = none := by
            cases hgi : oget inner k with
            | none => rfl
            | some v0 =>
              rw [hK.2 _ inner hg k v0 hgi hkmod]
              rfl
          rw [hnone] at hk
          have := Option.some.inj hk
          simp only [jsAdd, Option.map_none'] at this
          exact this.symm
        · rw [oget_oplusEq_ne _ _ _ _ hkm] at hk
          exact hK.2 _ inner hg k v hk hkmod
      · rw [oget_oset_ne _ _ _ _ hnm] at hg'
        exact hK.2 nm inner' hg' k v hk hkmod

theorem countStep3_KInv3 {marcas : List Marca} {st st' : CountSt} {r : Respuesta}
    (h : countStep3 marcas st r = some st') (hK : KInv3 marcas st) : KInv3 marcas st' := by
  unfold countStep3 at h
  exact foldlM_option_preserve _ (KInv3 marcas) marcas
    (fun b a b' _ hb hP => brandStep3_KInv3 hb hP) st st' h hK

theorem KInv3_init (marcas : List Marca) : KInv3 marcas (initCounters marcas) := by
  constructor
  · exact initCounters_mem marcas
  · intro nm inner hg k v hk hkmod
    exfalso
    apply hkmod
    rw [(initCounters_prop marcas nm inner hg).1] at hk
    have : k ∈ okeys innerInit := by
      rw [← oget_isSome_iff_mem]
      rw [hk]
      rfl
    simpa [innerInit, okeys, models] using this

theorem aggregateV3_fold_total (marcas : List Marca) (respuestas : List Respuesta)
    (hB : BrandsOk marcas) :
    ∃ st, respuestas.foldlM (countStep3 marcas) (initCounters marcas) = some st ∧
      KInv3 marcas st := by
  apply foldlM_option_total (countStep3 marcas) (KInv3 marcas) respuestas
  · intro st a _ hK
    obtain ⟨st', hst', _⟩ := countStep3_total a hB hK.1
    exact ⟨st', hst', countStep3_KInv3 hst' hK⟩
  · exact KInv3_init marcas

/-! ## Library lemmas: processing one answer whose provider is unknown -/

theorem countStep1_unknown (texto modelo : String) (hmod : modelo ∉ models) :
    ∀ (ms : List Marca) (st : CountSt),
      (∀ m ∈ ms, (parseRegex (jsToLower m.nombre_marca).toList).isSome = true) →
      (∀ m ∈ ms, (oget st.2 m.nombre_marca).isSome = true) →
      (∀ nm inner, oget st.2 nm = some inner → okeys inner = okeys innerInit) →
      (ms.map Marca.nombre_marca).Nodup →
      ∃ st', ms.foldlM (brandStep1 texto modelo) st = some st' ∧
        st'.2 = st.2 ∧
        (∀ nm, nm ∉ ms.map Marca.nombre_marca → oget st'.1 nm = oget st.1 nm) ∧
        (∀ m ∈ ms, ∀ cnt, countMentions (jsToLower m.nombre_marca) texto = some cnt →
          ∀ t, oget st.1 m.nombre_marca = some t →
            oget st'.1 m.nombre_marca = some (jsAdd t cnt)) := by
  intro ms
  induction ms with
  | nil =>
    intro st _ _ _ _
    exact ⟨st, by simp, rfl, fun _ _ => rfl, fun m hm => absurd hm (List.not_mem_nil m)⟩
  | cons m0 rest ih =>
    intro st hp hpres hkeys hnd
    obtain ⟨st1, hst1⟩ := brandStep1_total m0 (hp m0 (List.mem_cons_self _ _))
      (hpres m0 (List.mem_cons_self _ _))
    obtain ⟨cnt0, hc0, hcase⟩ := brandStep1_inv hst1
    have hmb : st1.2 = st.2 := by
      rcases hcase with ⟨_, rfl⟩ | ⟨hpos, inner, hg, hbm, hcase2⟩
      · rfl
      · rcases hcase2 with ⟨hck, hmb⟩ | ⟨hck, hmb⟩
        · exfalso
          have hkeq := hkeys _ inner hg
          have hmem : modelo ∈ okeys inner := (oget_isSome_iff_mem inner modelo).mp hck
          rw [hkeq] at hmem
          have : modelo ∈ models := by simpa [innerInit, okeys, models] using hmem
          exact hmod this
        · exact hmb
    have hbm1 : ∀ nm, nm ≠ m0.nombre_marca → oget st1.1 nm = oget st.1 nm := by
      rcases hcase with ⟨_, rfl⟩ | ⟨hpos, inner, hg, hbm, _⟩
      · exact fun _ _ => rfl
      · intro nm hnm
        rw [hbm, oget_oplusEq_ne _ _ _ _ hnm]
    have hbm0 : ∀ t, oget st.1 m0.nombre_marca = some t →
        oget st1.1 m0.nombre_marca = some (jsAdd t cnt0) := by
      rcases hcase with ⟨hz, rfl⟩ | ⟨hpos, inner, hg, hbm, _⟩
      · intro t ht
        have hz0 : cnt0 = 0 := by omega
        rw [hz0, jsAdd_zero]
        exact ht
      · intro t ht
        rw [hbm, oget_oplusEq_self, ht]
        rfl
    have hnd' := List.nodup_cons.mp hnd
    obtain ⟨st', hfold, hmb', hunch', hadd'⟩ := ih st1
      (fun m hm => hp m (List.mem_cons_of_mem _ hm))
      (fun m hm => by rw [hmb]; exact hpres m (List.mem_cons_of_mem _ hm))
      (fun nm inner hg => by rw [hmb] at hg; exact hkeys nm inner hg)
      hnd'.2
    refine ⟨st', ?_, by rw [hmb', hmb], ?_, ?_⟩
    · rw [foldlM_option_cons, hst1, Option.some_bind]
      exact hfold
    · intro nm hnm
      simp only [List.map_cons, List.mem_cons, not_or] at hnm
      rw [hunch' nm hnm.2, hbm1 nm hnm.1]
    · intro m hm cnt hcm t ht
      rcases List.mem_cons.mp hm with rfl | hm'
      · rw [hc0] at hcm
        obtain rfl : cnt0 = cnt := Option.some.inj hcm
        have hnotin : m.nombre_marca ∉ rest.map Marca.nombre_marca := hnd'.1
        rw [hunch' _ hnotin]
        exact hbm0 t ht
      · have hne : m.nombre_marca ≠ m0.nombre_marca := by
          intro he
          exact hnd'.1 (he ▸ List.mem_map_of_mem _ hm')
        exact hadd' m hm' cnt hcm t (by rw [hbm1 _ hne]; exact ht)

theorem countStep3_relate (texto modelo : String) :
    ∀ (ms : List Marca) (st : CountSt),
      (∀ m ∈ ms, (parseRegex (jsToLower m.nombre_marca).toList).isSome = true) →
      (∀ m ∈ ms, (oget st.2 m.nombre_marca).isSome = true) →
      (ms.map Marca.nombre_marca).Nodup →
      ∃ st', ms.foldlM (brandStep3 texto modelo) st = some st' ∧
        (∀ nm inner, oget st.2 nm = some inner →
          ∃ inner', oget st'.2 nm = some inner' ∧
            ∀ p, p ≠ modelo → oget inner' p = oget inner p) ∧
        (∀ nm, nm ∉ ms.map Marca.nombre_marca → oget st'.1 nm = oget st.1 nm) ∧
        (∀ m ∈ ms, ∀ cnt, countMentions (jsToLower m.nombre_marca) texto = some cnt →
          ∀ t, oget st.1 m.nombre_marca = some t →
            oget st'.1 m.nombre_marca = some (jsAdd t cnt)) := by
  intro ms
  induction ms with
  | nil =>
    intro st _ _ _
    exact ⟨st, by simp, fun nm inner hg => ⟨inner, hg, fun _ _ => rfl⟩,
      fun _ _ => rfl, fun m hm => absurd hm (List.not_mem_nil m)⟩
  | cons m0 rest ih =>
    intro st hp hpres hnd
    obtain ⟨st1, hst1⟩ := brandStep3_total m0 (hp m0 (List.mem_cons_self _ _))
      (hpres m0 (List.mem_cons_self _ _))
    obtain ⟨cnt0, hc0, hcase⟩ := brandStep3_inv hst1
    have hrel1 : ∀ nm inner, oget st.2 nm = some inner →
        ∃ inner₁, oget st1.2 nm = some inner₁ ∧
          ∀ p, p ≠ modelo → oget inner₁ p = oget inner p := by
      rcases hcase with ⟨_, rfl⟩ | ⟨hpos, inner0, hg, hbm, hmb⟩
      · exact fun nm inner hg => ⟨inner, hg, fun _ _ => rfl⟩
      · intro nm inner hgn
        by_cases hnm : nm = m0.nombre_marca
        · subst hnm
          rw [hg] at hgn
          have hi : inner0 = inner := Option.some.inj hgn
          refine ⟨oplusEq inner0 modelo cnt0, ?_, ?_⟩
          · rw [hmb, oget_oset_self]
          · intro p hp'
            rw [oget_oplusEq_ne _ _ _ _ hp', hi]
        · refine ⟨inner, ?_, fun _ _ => rfl⟩
          rw [hmb, oget_oset_ne _ _ _ _ hnm]
          exact hgn
    have hbm1 : ∀ nm, nm ≠ m0.nombre_marca → oget st1.1 nm = oget st.1 nm := by
      rcases hcase with ⟨_, rfl⟩ | ⟨hpos, inner0, hg, hbm, _⟩
      · exact fun _ _ => rfl
      · intro nm hnm
        rw [hbm, oget_oplusEq_ne _ _ _ _ hnm]
    have hbm0 : ∀ t, oget st.1 m0.nombre_marca = some t →
        oget st1.1 m0.nombre_marca = some (jsAdd t cnt0) := by
      rcases hcase with ⟨hz, rfl⟩ | ⟨hpos, inner0, hg, hbm, _⟩
      · intro t ht
        have hz0 : cnt0 = 0 := by omega
        rw [hz0, jsAdd_zero]
        exact ht
      · intro t ht
        rw [hbm, oget_oplusEq_self, ht]
        rfl
    have hnd' := List.nodup_cons.mp hnd
    obtain ⟨st', hfold, hrel', hunch', hadd'⟩ := ih st1
      (fun m hm => hp m (List.mem_cons_of_mem _ hm))
      (fun m hm => brandStep3_pres2 hst1 _ (hpres m (List.mem_cons_of_mem _ hm)))
      hnd'.2
    refine ⟨st', ?_, ?_, ?_, ?_⟩
    · rw [foldlM_option_cons, hst1, Option.some_bind]
      exact hfold
    · intro nm inner hgn
      obtain ⟨inner₁, hg₁, hrel₁⟩ := hrel1 nm inner hgn
      obtain ⟨inner', hg', hrel₂⟩ := hrel' nm inner₁ hg₁
      exact ⟨inner', hg', fun p hp' => by rw [hrel₂ p hp', hrel₁ p hp']⟩
    · intro nm hnm
      simp only [List.map_cons, List.mem_cons, not_or] at hnm
      rw [hunch' nm hnm.2, hbm1 nm hnm.1]
    · intro m hm cnt hcm t ht
      rcases List.mem_cons.mp hm with rfl | hm'
      · rw [hc0] at hcm
        obtain rfl : cnt0 = cnt := Option.some.inj hcm
        have hnotin : m.nombre_marca ∉ rest.map Marca.nombre_marca := hnd'.1
        rw [hunch' _ hnotin]
        exact hbm0 t ht
      · have hne : m.nombre_marca ≠ m0.nombre_marca := by
          intro he
          exact hnd'.1 (he ▸ List.mem_map_of_mem _ hm')
        exact hadd' m hm' cnt hcm t (by rw [hbm1 _ hne]; exact ht)

/-! ## Claim C1: answers from unknown providers -/

/-- Claim C1 (counterexample): the claim states that an answer whose
provider is unknown leaves every entry of each matched brand's per-provider
breakdown unchanged.  In the second and third iterations the unguarded
`modelBrandMentions[brand][modelo] += count` creates a new breakdown entry
under the unknown provider name holding NaN (`undefined + count`), so the
breakdown does change: with brand `nike` and one answer from unknown
provider `X`, the breakdown gains the entry `("X", NaN)`. -/
theorem c1_counterexample :
    aggregateV3 [⟨"nike"⟩] [⟨"X", "nike rocks"⟩] =
      some { brandMentions := [("nike", some 1)]
             modelBrandMentions :=
               [("nike",
                 [("Gemini", some 0), ("ChatGPT", some 0), ("Claude", some 0), ("X", none)])]
             pieLabels := ["nike"]
             pieData := [some 1]
             totalResponses := 1
             totalBrands := 1 } ∧
    aggregateV3 [⟨"nike"⟩] [] =
      some { brandMentions := [("nike", some 0)]
             modelBrandMentions :=
               [("nike", [("Gemini", some 0), ("ChatGPT", some 0), ("Claude", some 0)])]
             pieLabels := ["nike"]
             pieData := [some 0]
             totalResponses := 0
             totalBrands := 1 } ∧
    ([("nike",
        [("Gemini", some 0), ("ChatGPT", some 0), ("Claude", some 0), ("X", none)])] :
      List (String × List (String × JsNum))) ≠
      [("nike", [("Gemini", some 0), ("ChatGPT", some 0), ("Claude", some 0)])] := by
  refine ⟨?_, ?_, ?_⟩ <;> decide

/-- Claim C1 (amended): an answer whose provider name is not among the
configured providers still adds its mention count to each matched brand's
total, and no error is raised (aggregation still succeeds).  In the first
iteration the per-provider breakdown object is left entirely unchanged; in
the second and third iterations every configured provider's entry of the
breakdown is left unchanged, but a NaN-valued entry keyed by the unknown
provider name may be created for matched brands. -/
theorem c1_amended (marcas : List Marca) (respuestas : List Respuesta) (a : Respuesta)
    (hB : BrandsOk marcas)
    (hN : (marcas.map Marca.nombre_marca).Nodup)
    (hP : a.modelo_llm ∉ models) :
    ∃ r r' s s' : DashboardData,
      aggregate marcas respuestas = some r ∧
      aggregate marcas (respuestas ++ [a]) = some r' ∧
      r'.modelBrandMentions = r.modelBrandMentions ∧
      (∀ m ∈ marcas, ∀ cnt,
        countMentions (jsToLower m.nombre_marca) (jsToLower a.texto_respuesta) = some cnt →
        ∀ t, oget r.brandMentions m.nombre_marca = some t →
          oget r'.brandMentions m.nombre_marca = some (jsAdd t cnt)) ∧
      aggregateV3 marcas respuestas = some s ∧
      aggregateV3 marcas (respuestas ++ [a]) = some s' ∧
      (∀ nm inner, oget s.modelBrandMentions nm = some inner →
        ∃ inner', oget s'.modelBrandMentions nm = some inner' ∧
          ∀ p ∈ models, oget inner' p = oget inner p) ∧
      (∀ m ∈ marcas, ∀ cnt,
        countMentions (jsToLower m.nombre_marca) (jsToLower a.texto_respuesta) = some cnt →
        ∀ t, oget s.brandMentions m.nombre_marca = some t →
          oget s'.brandMentions m.nombre_marca = some (jsAdd t cnt)) := by
  obtain ⟨st, hfold, hK⟩ := aggregate_fold_total marcas respuestas hB
  obtain ⟨st', hstep, hmb, hunch, hadd⟩ :=
    countStep1_unknown (jsToLower a.texto_respuesta) a.modelo_llm hP marcas st
      hB hK.1 hK.2 hN
  have hstep' : countStep1 marcas st a = some st' := hstep
  obtain ⟨st3, hfold3, hK3⟩ := aggregateV3_fold_total marcas respuestas hB
  obtain ⟨st3', hstep3, hrel3, hunch3, hadd3⟩ :=
    countStep3_relate (jsToLower a.texto_respuesta) a.modelo_llm marcas st3
      hB hK3.1 hN
  have hstep3' : countStep3 marcas st3 a = some st3' := hstep3
  refine
    ⟨⟨st.1, st.2, okeys st.1, ovalues st.1, respuestas.length, marcas.length⟩,
     ⟨st'.1, st'.2, okeys st'.1, ovalues st'.1, (respuestas ++ [a]).length, marcas.length⟩,
     ⟨st3.1, st3.2, okeys st3.1, ovalues st3.1, respuestas.length, marcas.length⟩,
     ⟨st3'.1, st3'.2, okeys st3'.1, ovalues st3'.1, (respuestas ++ [a]).length, marcas.length⟩,
     ?_, ?_, ?_, ?_, ?_, ?_, ?_, ?_⟩
  · unfold aggregate
    rw [hfold]
    rfl
  · unfold aggregate
    rw [foldlM_option_append, hfold, Option.some_bind, foldlM_option_cons, hstep',
      Option.some_bind]
    rfl
  · exact hmb
  · exact hadd
  · unfold aggregateV3
    rw [hfold3]
    rfl
  · unfold aggregateV3
    rw [foldlM_option_append, hfold3, Option.some_bind, foldlM_option_cons, hstep3',
      Option.some_bind]
    rfl
  · intro nm inner hg
    obtain ⟨inner', hg', hrel⟩ := hrel3 nm inner hg
    exact ⟨inner', hg', fun p hpm => hrel p (fun he => hP (he ▸ hpm))⟩
  · exact hadd3

theorem c1_witness :
    (BrandsOk [⟨"nike"⟩] ∧
      (([⟨"nike"⟩] : List Marca).map Marca.nombre_marca).Nodup ∧
      ("X" : String) ∉ models) ∧
    (∃ r r' s s' : DashboardData,
      aggregate [⟨"nike"⟩] [] = some r ∧
      aggregate [⟨"nike"⟩] ([] ++ [⟨"X", "nike rocks"⟩]) = some r' ∧
      r'.modelBrandMentions = r.modelBrandMentions ∧
      (∀ m ∈ ([⟨"nike"⟩] : List Marca), ∀ cnt,
        countMentions (jsToLower m.nombre_marca)
          (jsToLower (Respuesta.texto_respuesta ⟨"X", "nike rocks"⟩)) = some cnt →
        ∀ t, oget r.brandMentions m.nombre_marca = some t →
          oget r'.brandMentions m.nombre_marca = some (jsAdd t cnt)) ∧
      aggregateV3 [⟨"nike"⟩] [] = some s ∧
      aggregateV3 [⟨"nike"⟩] ([] ++ [⟨"X", "nike rocks"⟩]) = some s' ∧
      (∀ nm inner, oget s.modelBrandMentions nm = some inner →
        ∃ inner', oget s'.modelBrandMentions nm = some inner' ∧
          ∀ p ∈ models, oget inner' p = oget inner p) ∧
      (∀ m ∈ ([⟨"nike"⟩] : List Marca), ∀ cnt,
        countMentions (jsToLower m.nombre_marca)
          (jsToLower (Respuesta.texto_respuesta ⟨"X", "nike rocks"⟩)) = some cnt →
        ∀ t, oget s.brandMentions m.nombre_marca = some t →
          oget s'.brandMentions m.nombre_marca = some (jsAdd t cnt))) :=
  ⟨⟨by unfold BrandsOk; decide, by decide, by decide⟩,
    c1_amended [⟨"nike"⟩] [] ⟨"X", "nike rocks"⟩
      (by unfold BrandsOk; decide) (by decide) (by decide)⟩

/-! ## Library lemmas: breakdown sums versus totals -/

theorem brandStep1_SumInv {texto modelo : String} {st st' : CountSt} {m : Marca}
    (h : brandStep1 texto modelo st m = some st') (hS : SumInv st) : SumInv st' := by
  obtain ⟨cnt, hc, hcase⟩ := brandStep1_inv h
  rcases hcase with ⟨_, rfl⟩ | ⟨hpos, inner, hg, hbm, hcase2⟩
  · exact hS
  · intro nm inner₂ hg₂
    by_cases hnm : nm = m.nombre_marca
    · subst hnm
      obtain ⟨hkeys, hall, t, hbmt, hsum⟩ := hS _ inner hg
      have hbm' : oget st'.1 m.nombre_marca = some (some (t + cnt)) := by
        rw [hbm, oget_oplusEq_self, hbmt]
        rfl
      rcases hcase2 with ⟨hck, hmb⟩ | ⟨hck, hmb⟩
      · rw [hmb, oget_oset_self] at hg₂
        obtain ⟨jv, hjv⟩ := Option.isSome_iff_exists.mp hck
        obtain ⟨v, rfl⟩ := Option.isSome_iff_exists.mp (hall _ (oget_mem hjv))
        have heq : oplusEq inner modelo cnt = oset inner modelo (some (v + cnt)) := by
          unfold oplusEq
          rw [hjv]
          rfl
        rw [← Option.some.inj hg₂, heq]
        refine ⟨?_, ?_, t + cnt, hbm', ?_⟩
        · rw [okeys_oset_mem _ _ _ ((oget_isSome_iff_mem inner modelo).mp hck)]
          exact hkeys
        · intro kv hkv
          rcases mem_oset kv hkv with hin | hkveq
          · exact hall kv hin
          · rw [hkveq]
            rfl
        · rw [sumVals_oset hjv cnt]
          omega
      · rw [hmb] at hg₂
        rw [hg] at hg₂
        rw [← Option.some.inj hg₂]
        refine ⟨hkeys, hall, t + cnt, hbm', ?_⟩
        omega
    · have hbm_ne : oget st'.1 nm = oget st.1 nm := by
        rw [hbm, oget_oplusEq_ne _ _ _ _ hnm]
      have hg_ne : oget st.2 nm = some inner₂ := by
        rcases hcase2 with ⟨hck, hmb⟩ | ⟨hck, hmb⟩
        · rw [hmb, oget_oset_ne _ _ _ _ hnm] at hg₂
          exact hg₂
        · rw [hmb] at hg₂
          exact hg₂
      obtain ⟨hkeys, hall, t, hbmt, hsum⟩ := hS nm inner₂ hg_ne
      exact ⟨hkeys, hall, t, by rw [hbm_ne]; exact hbmt, hsum⟩

theorem brandStep1_SumEq {texto modelo : String} {st st' : CountSt} {m : Marca}
    (h : brandStep1 texto modelo st m = some st') (hmod : modelo ∈ models)
    (hS : SumInv st) (hE : SumEq st) : SumEq st' := by
  obtain ⟨cnt, hc, hcase⟩ := brandStep1_inv h
  rcases hcase with ⟨_, rfl⟩ | ⟨hpos, inner, hg, hbm, hcase2⟩
  · exact hE
  · obtain ⟨hkeys, hall, t0, hbmt0, hsum0⟩ := hS _ inner hg
    have hck : (oget inner modelo).isSome = true := by
      rw [oget_isSome_iff_mem, hkeys]
      simpa [innerInit, okeys, models] using hmod
    rcases hcase2 with ⟨_, hmb⟩ | ⟨hck', _⟩
    · intro nm inner₂ hg₂
      by_cases hnm : nm = m.nombre_marca
      · subst hnm
        obtain ⟨t, hbmt, hsum⟩ := hE _ inner hg
        have hbmt0c := hbmt0
        rw [hbmt] at hbmt0c
        obtain rfl : t = t0 := Option.some.inj (Option.some.inj hbmt0c)
        have hbm' : oget st'.1 m.nombre_marca = some (some (t + cnt)) := by
          rw [hbm, oget_oplusEq_self, hbmt]
          rfl
        rw [hmb, oget_oset_self] at hg₂
        obtain ⟨jv, hjv⟩ := Option.isSome_iff_exists.mp hck
        obtain ⟨v, rfl⟩ := Option.isSome_iff_exists.mp (hall _ (oget_mem hjv))
        have heq : oplusEq inner modelo cnt = oset inner modelo (some (v + cnt)) := by
          unfold oplusEq
          rw [hjv]
          rfl
        rw [← Option.some.inj hg₂, heq]
        refine ⟨t + cnt, hbm', ?_⟩
        rw [sumVals_oset hjv cnt]
        omega
      · have hbm_ne : oget st'.1 nm = oget st.1 nm := by
          rw [hbm, oget_oplusEq_ne _ _ _ _ hnm]
        rw [hmb, oget_oset_ne _ _ _ _ hnm] at hg₂
        obtain ⟨t, hbmt, hsum⟩ := hE nm inner₂ hg₂
        exact ⟨t, by rw [hbm_ne]; exact hbmt, hsum⟩
    · rw [hck] at hck'
      simp at hck'

theorem countStep1_SumInv {marcas : List Marca} {st st' : CountSt} {r : Respuesta}
    (h : countStep1 marcas st r = some st') (hS : SumInv st) : SumInv st' := by
  unfold countStep1 at h
  exact foldlM_option_preserve _ SumInv marcas
    (fun b a b' _ hb hP => brandStep1_SumInv hb hP) st st' h hS

theorem countStep1_SumBoth {marcas : List Marca} {st st' : CountSt} {r : Respuesta}
    (h : countStep1 marcas st r = some st') (hmod : r.modelo_llm ∈ models)
    (hS : SumInv st ∧ SumEq st) : SumInv st' ∧ SumEq st' := by
  unfold countStep1 at h
  exact foldlM_option_preserve _ (fun b => SumInv b ∧ SumEq b) marcas
    (fun b a b' _ hb hP =>
      ⟨brandStep1_SumInv hb hP.1, brandStep1_SumEq hb hmod hP.1 hP.2⟩)
    st st' h hS

theorem SumInv_init (marcas : List Marca) : SumInv (initCounters marcas) := by
  intro nm inner hg
  obtain ⟨hinner, hbm⟩ := initCounters_prop marcas nm inner hg
  subst hinner
  exact ⟨rfl, by decide, 0, hbm, by decide⟩

theorem SumEq_init (marcas : List Marca) : SumEq (initCounters marcas) := by
  intro nm inner hg
  obtain ⟨hinner, hbm⟩ := initCounters_prop marcas nm inner hg
  subst hinner
  exact ⟨0, hbm, by decide⟩

/-! ## Claim C10: breakdown sums are bounded by totals -/

/-- Claim C10: in every aggregation result, for every brand, the sum of the
brand's per-provider breakdown entries is at most the brand's total, with
equality when every stored answer's provider name is one of the configured
providers.  (All breakdown entries are genuine numbers, never NaN.) -/
theorem c10_breakdown_bounded (marcas : List Marca) (respuestas : List Respuesta)
    (r : DashboardData) (h : aggregate marcas respuestas = some r) :
    ∀ nm inner, oget r.modelBrandMentions nm = some inner →
      (∀ kv ∈ inner, kv.2.isSome = true) ∧
      ∃ t, oget r.brandMentions nm = some (some t) ∧
        sumVals inner ≤ t ∧
        ((∀ a ∈ respuestas, a.modelo_llm ∈ models) → sumVals inner = t) := by
  intro nm inner hg
  obtain ⟨st, hfold, hbm_r, hmb_r⟩ := aggregate_state h
  rw [hmb_r] at hg
  have hSI : SumInv st :=
    foldlM_option_preserve (countStep1 marcas) SumInv respuestas
      (fun b a b' _ hb hP => countStep1_SumInv hb hP) _ st hfold (SumInv_init marcas)
  obtain ⟨hkeys, hall_some, t, hbm, hsum⟩ := hSI nm inner hg
  refine ⟨hall_some, t, by rw [hbm_r]; exact hbm, hsum, ?_⟩
  intro hall
  have hSE : SumInv st ∧ SumEq st :=
    foldlM_option_preserve (countStep1 marcas) (fun b => SumInv b ∧ SumEq b) respuestas
      (fun b a b' ha hb hP => countStep1_SumBoth hb (hall a ha) hP) _ st hfold
      ⟨SumInv_init marcas, SumEq_init marcas⟩
  obtain ⟨t2, hbm2, hsum2⟩ := hSE.2 nm inner hg
  have hbm2c := hbm2
  rw [hbm] at hbm2c
  obtain rfl : t2 = t := Option.some.inj (Option.some.inj hbm2c.symm)
  exact hsum2

theorem c10_witness :
    aggregate [⟨"nike"⟩] [⟨"Gemini", "nike rocks"⟩] =
      some { brandMentions := [("nike", some 1)]
             modelBrandMentions :=
               [("nike", [("Gemini", some 1), ("ChatGPT", some 0), ("Claude", some 0)])]
             pieLabels := ["nike"]
             pieData := [some 1]
             totalResponses := 1
             totalBrands := 1 } ∧
    (∀ nm inner,
      oget (DashboardData.modelBrandMentions
        { brandMentions := [("nike", some 1)]
          modelBrandMentions :=
            [("nike", [("Gemini", some 1), ("ChatGPT", some 0), ("Claude", some 0)])]
          pieLabels := ["nike"]
          pieData := [some 1]
          totalResponses := 1
          totalBrands := 1 }) nm = some inner →
      (∀ kv ∈ inner, kv.2.isSome = true) ∧
      ∃ t, oget (DashboardData.brandMentions
        { brandMentions := [("nike", some 1)]
          modelBrandMentions :=
            [("nike", [("Gemini", some 1), ("ChatGPT", some 0), ("Claude", some 0)])]
          pieLabels := ["nike"]
          pieData := [some 1]
          totalResponses := 1
          totalBrands := 1 }) nm = some (some t) ∧
        sumVals inner ≤ t ∧
        ((∀ a ∈ ([⟨"Gemini", "nike rocks"⟩] : List Respuesta), a.modelo_llm ∈ models) →
          sumVals inner = t)) :=
  ⟨by decide,
    c10_breakdown_bounded [⟨"nike"⟩] [⟨"Gemini", "nike rocks"⟩] _ (by decide)⟩
